import Mathlib

/-!
# ComputerGraphics demos: Bezier evaluation, mesh hierarchy, pointer handlers

A shallow embedding of the parts of the OpenGL teaching demos that carry
logic of their own: the two cubic Bezier classes (`Assn-8-BezierCurve.cpp`,
`Assn-10-Animation.cpp`), the `HMesh` parent/child transform propagation and
the keyboard handling of `Assn-7-Hierarchy.cpp`, the fitting of the letter
(`StandardizePoints`, `SetUvs`) and the mouse, wheel and resize callbacks of
the demos that drive the camera.

Conventions.
* C++ `float` arithmetic is embedded twice. The definitions over a commutative
  ring or field `K` (they run at `K = ℚ`) are the exact functions that the
  code approximates. The definitions in `Binary32` are the same bodies over
  `F32`, IEEE 754 binary32 with every operation rounded to nearest, ties to
  even, in the order the C++ expression fixes and without fused
  multiply-add; they say what the compiled code returns on finite values.
* `vec3`, `vec4`, `mat4` and their operators come from the course library
  header `VecMat.h`; they are embedded as the usual componentwise operations.
* A C++ pointer into an array is embedded as the list of elements from the
  pointed one on; a pointer to one of the three global meshes is an
  `Option MeshId`.
-/

namespace Graphics

/-! ## Vectors and matrices (`VecMat.h`) -/

/-- Three floats `x, y, z`. -/
structure vec3 (K : Type) where
  x : K
  y : K
  z : K
deriving DecidableEq, Repr

/-- Four floats `x, y, z, w`. -/
structure vec4 (K : Type) where
  x : K
  y : K
  z : K
  w : K
deriving DecidableEq, Repr

/-- Four rows of `vec4` (`mat4::row`). -/
structure mat4 (K : Type) where
  row0 : vec4 K
  row1 : vec4 K
  row2 : vec4 K
  row3 : vec4 K
deriving DecidableEq, Repr

namespace vec3

variable {K : Type}

/-- Componentwise sum, `operator+`. -/
def add [Add K] (a b : vec3 K) : vec3 K := ⟨a.x + b.x, a.y + b.y, a.z + b.z⟩

/-- Componentwise difference, `operator-`. -/
def sub [Sub K] (a b : vec3 K) : vec3 K := ⟨a.x - b.x, a.y - b.y, a.z - b.z⟩

/-- Unary minus. -/
def neg [Neg K] (a : vec3 K) : vec3 K := ⟨-a.x, -a.y, -a.z⟩

/-- Scalar times vector, `operator*(float, vec3)`. -/
def smul [Mul K] (s : K) (a : vec3 K) : vec3 K := ⟨s * a.x, s * a.y, s * a.z⟩

/-- The vector `(0, 0, 0)`. -/
def zero [Zero K] : vec3 K := ⟨0, 0, 0⟩

instance [Add K] : Add (vec3 K) := ⟨add⟩
instance [Sub K] : Sub (vec3 K) := ⟨sub⟩
instance [Neg K] : Neg (vec3 K) := ⟨neg⟩
instance [Mul K] : HMul K (vec3 K) (vec3 K) := ⟨smul⟩
instance [Zero K] : Zero (vec3 K) := ⟨zero⟩

/-- Indexing `v[i]` for `i = 0, 1, 2`. -/
def get [Zero K] (v : vec3 K) (i : Nat) : K :=
  match i with
  | 0 => v.x
  | 1 => v.y
  | 2 => v.z
  | _ => 0

end vec3

namespace vec4

variable {K : Type}

/-- Sum of the four componentwise products. -/
def dot4 [Add K] [Mul K] (a b : vec4 K) : K :=
  a.x * b.x + a.y * b.y + a.z * b.z + a.w * b.w

end vec4

namespace mat4

variable {K : Type}

/-- First column. -/
def colx (m : mat4 K) : vec4 K := ⟨m.row0.x, m.row1.x, m.row2.x, m.row3.x⟩

/-- Second column. -/
def coly (m : mat4 K) : vec4 K := ⟨m.row0.y, m.row1.y, m.row2.y, m.row3.y⟩

/-- Third column. -/
def colz (m : mat4 K) : vec4 K := ⟨m.row0.z, m.row1.z, m.row2.z, m.row3.z⟩

/-- Fourth column. -/
def colw (m : mat4 K) : vec4 K := ⟨m.row0.w, m.row1.w, m.row2.w, m.row3.w⟩

/-- A row vector times a matrix. -/
def rowMul [Add K] [Mul K] (r : vec4 K) (b : mat4 K) : vec4 K :=
  ⟨vec4.dot4 r b.colx, vec4.dot4 r b.coly, vec4.dot4 r b.colz, vec4.dot4 r b.colw⟩

/-- Matrix product, `operator*(mat4, mat4)`. -/
def mul [Add K] [Mul K] (a b : mat4 K) : mat4 K :=
  ⟨rowMul a.row0 b, rowMul a.row1 b, rowMul a.row2 b, rowMul a.row3 b⟩

/-- Identity matrix, `mat4(1)`. -/
def one [Zero K] [One K] : mat4 K :=
  ⟨⟨1, 0, 0, 0⟩, ⟨0, 1, 0, 0⟩, ⟨0, 0, 1, 0⟩, ⟨0, 0, 0, 1⟩⟩

instance [Add K] [Mul K] : Mul (mat4 K) := ⟨mul⟩
instance [Zero K] [One K] : One (mat4 K) := ⟨one⟩

end mat4

/-- The first three entries of a `vec4`. -/
def vec4.xyz {K : Type} (a : vec4 K) : vec3 K := ⟨a.x, a.y, a.z⟩

/-- Dot product of two `vec3`. -/
def dot {K : Type} [Add K] [Mul K] (a b : vec3 K) : K :=
  a.x * b.x + a.y * b.y + a.z * b.z

/-- Cross product of two `vec3`. -/
def cross {K : Type} [Sub K] [Mul K] (a b : vec3 K) : vec3 K :=
  ⟨a.y * b.z - a.z * b.y, a.z * b.x - a.x * b.z, a.x * b.y - a.y * b.x⟩

/-- Function `length(v)` of `VecMat.h`: the square root of `dot(v, v)`. The square
root function is a parameter. -/
def length {K : Type} [Add K] [Mul K] (sqrt : K → K) (v : vec3 K) : K :=
  sqrt (dot v v)

/-- Function `normalize(v)` of `VecMat.h`: `v` divided by its length. -/
def normalize {K : Type} [Field K] (sqrt : K → K) (v : vec3 K) : vec3 K :=
  (1 / length sqrt v) * v

/-- Indexing `a[i]`, the element `i` places after the one a pointer (or vector) `a`
starts at; reading past the end is undefined in C++ and gives `0` here. -/
def at3 {K : Type} [Zero K] (a : List (vec3 K)) (i : Nat) : vec3 K :=
  a.getD i 0

/-! ## `Assn-8-BezierCurve.cpp` -/

namespace BezierCurve

/-- The class `Bezier` of the BezierCurve demo: `vector<vec3> ctrlPoints`. -/
structure Bezier (K : Type) where
  ctrlPoints : List (vec3 K)
deriving DecidableEq, Repr

/-- Constant `NUM_POINTS`. -/
def NUM_POINTS : Nat := 4

/-- Constant `SEGMENT_COUNT`. -/
def SEGMENT_COUNT : Nat := 100

/-- Constructor `Bezier(const vector<vec3> &points)`: throws
`invalid_argument` unless there are `NUM_POINTS` points. -/
def Bezier.new {K : Type} (points : List (vec3 K)) : Except String (Bezier K) :=
  if points.length ≠ NUM_POINTS then
    Except.error "Cubic Bezier curve requires 4 control points"
  else
    Except.ok ⟨points⟩

/-- Method `Bezier::ComputePointOnCurve(float t)`. -/
def Bezier.ComputePointOnCurve {K : Type} [CommRing K] (b : Bezier K) (t : K) : vec3 K :=
  let s := 1 - t
  let tt := t * t
  let ss := s * s
  let ttt := tt * t
  let sss := ss * s
  (sss * at3 b.ctrlPoints 0) + ((3 * ss * t) * at3 b.ctrlPoints 1) +
    ((3 * s * tt) * at3 b.ctrlPoints 2) + ttt * at3 b.ctrlPoints 3

/-- The global `points`: the demo's four control points. -/
def points : List (vec3 ℚ) :=
  [⟨-1, 1, 0⟩, ⟨-1, -1, 0⟩, ⟨1, 1, 0⟩, ⟨1, -1, 0⟩]

end BezierCurve

/-! ## `Assn-10-Animation.cpp` -/

namespace Animation

/-- The class `Bezier` of the Animation demo: `vec3 *pts`, a pointer to four
control points inside an array. -/
structure Bezier (K : Type) where
  pts : List (vec3 K)
deriving DecidableEq, Repr

/-- Method `Bezier::Position(float t)`. -/
def Bezier.Position {K : Type} [CommRing K] (b : Bezier K) (t : K) : vec3 K :=
  let t2 := t * t
  let t3 := t * t2
  (-t3 + 3 * t2 - 3 * t + 1) * at3 b.pts 0 +
    (3 * t3 - 6 * t2 + 3 * t) * at3 b.pts 1 + (3 * t2 - 3 * t3) * at3 b.pts 2 +
    t3 * at3 b.pts 3

/-- Method `Bezier::Velocity(float t)`. -/
def Bezier.Velocity {K : Type} [CommRing K] (b : Bezier K) (t : K) : vec3 K :=
  let t2 := t * t
  (-3 * t2 + 6 * t - 3) * at3 b.pts 0 +
    (9 * t2 - 12 * t + 3) * at3 b.pts 1 +
    (6 * t - 9 * t2) * at3 b.pts 2 + (3 * t2) * at3 b.pts 3

/-- Method `Bezier::Frame(float t)`: rows `{n[i], b[i], -v[i], p[i]}` for
`i = 0, 1, 2` and the row `{0, 0, 0, 1}`. -/
def Bezier.Frame {K : Type} [Field K] (sqrt : K → K) (b : Bezier K) (t : K) : mat4 K :=
  let v := normalize sqrt (b.Velocity t)
  let n := normalize sqrt (cross v ⟨0, 1, 0⟩)
  let bn := normalize sqrt (cross n v)
  let p := b.Position t
  ⟨⟨n.get 0, bn.get 0, -v.get 0, p.get 0⟩,
   ⟨n.get 1, bn.get 1, -v.get 1, p.get 1⟩,
   ⟨n.get 2, bn.get 2, -v.get 2, p.get 2⟩,
   ⟨0, 0, 0, 1⟩⟩

/-- The global `path`: thirteen control points of the flight path
(`2 / 3.f` and the like embedded as exact fractions). -/
def path (K : Type) [Field K] : List (vec3 K) :=
  [⟨2 / 3, 0, 2 / 3⟩,
   ⟨1, 0, 1 / 3⟩,
   ⟨1, 1 / 10, -1 / 3⟩,
   ⟨2 / 3, 1 / 10, -2 / 3⟩,
   ⟨1 / 3, 1 / 10, -1⟩,
   ⟨-1 / 3, 4 / 10, -1⟩,
   ⟨-2 / 3, 4 / 10, -2 / 3⟩,
   ⟨-1, 4 / 10, -1 / 3⟩,
   ⟨-1, 0, 1 / 3⟩,
   ⟨-2 / 3, 0, 2 / 3⟩,
   ⟨-1 / 3, 0, 1⟩,
   ⟨1 / 3, 0, 1⟩,
   ⟨2 / 3, 0, 2 / 3⟩]

/-- The global `bezier`: `Bezier(&path[0])`, `Bezier(&path[3])`,
`Bezier(&path[6])`, `Bezier(&path[9])`. -/
def bezier (K : Type) [Field K] : List (Bezier K) :=
  [⟨(path K).drop 0⟩, ⟨(path K).drop 3⟩, ⟨(path K).drop 6⟩, ⟨(path K).drop 9⟩]

end Animation

/-! ## `Assn-7-Hierarchy.cpp` -/

namespace Hierarchy

/-- Hard-wired transformation of the dog. -/
def dogM : mat4 ℚ :=
  ⟨⟨1.00, 0.00, 0.00, -1.10⟩,
   ⟨0.00, 1.00, 0.00, 0.00⟩,
   ⟨0.00, 0.00, 1.00, -0.19⟩,
   ⟨0.00, 0.00, 0.00, 1.00⟩⟩

/-- Hard-wired transformation of the bird. -/
def birdM : mat4 ℚ :=
  ⟨⟨-0.07, -0.22, -0.02, -1.07⟩,
   ⟨0.22, -0.07, 0.02, 0.36⟩,
   ⟨-0.03, -0.01, 0.23, 0.22⟩,
   ⟨0.00, 0.00, 0.00, 1.00⟩⟩

/-- Hard-wired transformation of the hat. -/
def hatM : mat4 ℚ :=
  ⟨⟨0.04, 0.01, 0.02, -1.02⟩,
   ⟨0.02, -0.00, -0.04, 0.22⟩,
   ⟨-0.01, 0.05, -0.00, 0.37⟩,
   ⟨0.00, 0.00, 0.00, 1.00⟩⟩

/-- The three global `HMesh` objects; an `HMesh *` is an `Option MeshId`. -/
inductive MeshId where
  | dog
  | bird
  | hat
deriving DecidableEq, Repr

/-- The fields of `HMesh` that the transform code reads and writes. -/
structure HMesh (K : Type) where
  toWorld : mat4 K
  child : Option MeshId
deriving DecidableEq, Repr

/-- Constructor `HMesh(mat4 m = mat4(1)) : toWorld(m)`. It does not set
`child`; the three meshes are globals, so `child` starts as the null pointer. -/
def HMesh.new {K : Type} (m : mat4 K) : HMesh K := ⟨m, none⟩

/-- The globals `dog`, `bird`, `hat`. -/
structure Scene (K : Type) where
  dog : HMesh K
  bird : HMesh K
  hat : HMesh K
deriving DecidableEq, Repr

/-- Dereference a mesh pointer. -/
def Scene.get {K : Type} (s : Scene K) : MeshId → HMesh K
  | .dog => s.dog
  | .bird => s.bird
  | .hat => s.hat

/-- Store through a mesh pointer. -/
def Scene.set {K : Type} (s : Scene K) (i : MeshId) (h : HMesh K) : Scene K :=
  match i with
  | .dog => { s with dog := h }
  | .bird => { s with bird := h }
  | .hat => { s with hat := h }

/-- Method `HMesh::Init(dir, objName, texName, parent)`, as far as the hierarchy
goes: `if (parent) parent->child = this`. Reading the mesh and texture files
and filling the GPU buffers touch neither `toWorld` nor `child`. -/
def HMesh.Init {K : Type} (s : Scene K) (self : MeshId) (parent : Option MeshId) : Scene K :=
  match parent with
  | some p => s.set p { s.get p with child := some self }
  | none => s

/-- Method `HMesh::ApplyTransform(mat4 m)`: `toWorld = m * toWorld`, then the same
on the child if there is one. The recursion follows pointers, so it is run
with fuel; `none` means the fuel ran out. -/
def HMesh.ApplyTransform {K : Type} [Add K] [Mul K] :
    Nat → Scene K → MeshId → mat4 K → Option (Scene K)
  | 0, _, _, _ => none
  | fuel + 1, s, self, m =>
    let s1 := s.set self { s.get self with toWorld := m * (s.get self).toWorld }
    match (s1.get self).child with
    | some c => HMesh.ApplyTransform fuel s1 c m
    | none => some s1

/-- The scene once `main` has run the three `Init` calls:
`dog.Init(.., NULL)`, `bird.Init(.., &dog)`, `hat.Init(.., &bird)`. -/
def mainScene : Scene ℚ :=
  let s0 : Scene ℚ := ⟨HMesh.new dogM, HMesh.new birdM, HMesh.new hatM⟩
  let s1 := HMesh.Init s0 .dog none
  let s2 := HMesh.Init s1 .bird (some .dog)
  HMesh.Init s2 .hat (some .bird)

end Hierarchy

/-! ## The camera, as the callbacks use it (`Camera.h`) -/

/-- Modelled from the spec: the part of the `Camera` state that the callbacks
of the demos read or drive; the class itself (`Camera.h`) is not among the
sources. `down` is the dragging flag (`Idle` when false), `shift` and `control`
are the modifier flags recorded by `Down`, `width`, `height` and `aspect` are
the viewport size and the aspect ratio of the projection; then the pose
(rotation, pan offset, distance) and what `Down` records for the gesture. The
demos start at distance 5 (6 in the Tessellation demo). -/
structure Camera where
  down : Bool
  shift : Bool
  control : Bool
  width : Int
  height : Int
  aspect : ℚ
  /-- Current rotation, a unit quaternion `(x, y, z, w)`. -/
  rotation : vec4 ℚ := ⟨0, 0, 0, 1⟩
  /-- Pan offset. -/
  pan : vec3 ℚ := ⟨0, 0, 0⟩
  /-- Distance from the target (dolly). -/
  distance : ℚ := 5
  /-- Pointer position recorded at `Down`. -/
  mouseDown : ℚ × ℚ := (0, 0)
  /-- Pan offset recorded when a pan gesture starts. -/
  panDown : vec3 ℚ := ⟨0, 0, 0⟩
  /-- Rotation recorded when a rotate gesture starts. -/
  rotationDown : vec4 ℚ := ⟨0, 0, 0, 1⟩
deriving DecidableEq, Repr

/-- Division that fails on a zero divisor. -/
def divChecked (a b : ℚ) : Option ℚ :=
  if b = 0 then none else some (a / b)

/-- Modelled from the spec: the `Camera` constructor, for a viewport of the
given size; the camera starts `Idle`. `none` is a division by zero in the
aspect ratio. -/
def Camera.new (width height : Int) : Option Camera :=
  (divChecked width height).map fun r =>
    { down := false, shift := false, control := false,
      width := width, height := height, aspect := r }

/-- Modelled from the spec: `Camera::Down(x, y, shift, control)` starts a
gesture and records the modifiers and the start pointer: with `shift` a pan
gesture, which also records the current pan offset; otherwise a rotation, for
which the arcball records the current rotation. -/
def Camera.Down (c : Camera) (x y : ℚ) (shift control : Bool) : Camera :=
  { c with down := true, shift := shift, control := control,
           mouseDown := (x, y),
           panDown := if shift then c.pan else c.panDown,
           rotationDown := if shift then c.rotationDown else c.rotation }

/-- Modelled from the spec: `Camera::Up()` ends whichever gesture was active
and returns to `Idle`. -/
def Camera.Up (c : Camera) : Camera :=
  { c with down := false }

/-- Modelled from the spec: `Camera::Resize(width, height)` updates the
viewport size and the aspect ratio, "clamping to a minimum of 1 to avoid
division-by-zero in aspect-ratio computation". `none` is a division by
zero. -/
def Camera.Resize (c : Camera) (width height : Int) : Option Camera :=
  let w := max width 1
  let h := max height 1
  (divChecked w h).map fun r => { c with width := w, height := h, aspect := r }

/-- Modelled from the spec: the zoom rule of `Camera::Wheel`, which the spec
leaves open between "a multiplicative or additive step proportional to spin"
with a clamp "to a minimum positive distance". `step` is the size of the step
per unit of spin, `minDistance` the clamp. -/
structure WheelRule where
  multiplicative : Bool
  step : ℚ
  minDistance : ℚ
deriving DecidableEq, Repr

/-- A zoom rule with a positive step and a positive minimum distance. -/
def WheelRule.Valid (r : WheelRule) : Prop :=
  0 < r.step ∧ 0 < r.minDistance

/-- Modelled from the spec: `Camera::Wheel(spin, shift)` moves `distance` by
the step of the rule times `spin` (a positive spin zooms in) and clamps it to
the minimum distance; there is no change of gesture state. The spec gives
`shift` no role in it. -/
def Camera.Wheel (r : WheelRule) (c : Camera) (spin : ℚ) (_shift : Bool) : Camera :=
  let moved := if r.multiplicative then c.distance * (1 - r.step * spin)
    else c.distance - r.step * spin
  { c with distance := max r.minDistance moved }

/-- The camera after `n` successive calls `Wheel(+1, shift)`. -/
def Camera.wheelIn (r : WheelRule) (shift : Bool) (n : Nat) (c : Camera) : Camera :=
  (fun c => Camera.Wheel r c 1 shift)^[n] c

/-! ## Application state shared by the callbacks -/

/-- A mouse-button event as the host delivers it, `(x, y, left, down)`,
together with what `Shift()` and `Control()` answer while it is handled. -/
structure ButtonEvent where
  x : ℚ
  y : ℚ
  left : Bool
  down : Bool
  shift : Bool
  control : Bool
deriving DecidableEq, Repr

/-- The global `void *picked`: `NULL`, `&mover` or `&camera`. -/
inductive Picked where
  | null
  | mover
  | camera
deriving DecidableEq, Repr

/-- A call a callback makes on the camera, the mover or GL. -/
inductive Call where
  | cameraDown (x y : ℚ) (shift control : Bool)
  | cameraUp
  | cameraResize (width height : Int)
  | moverDown (i : Nat)
  | glViewport (x y width height : Int)
  | cameraWheel (spin : ℚ) (shift : Bool)
deriving DecidableEq, Repr

/-- The globals a callback reads and writes, and the calls made so far. -/
structure App where
  camera : Camera
  picked : Picked
  winWidth : Int
  winHeight : Int
  calls : List Call
deriving DecidableEq, Repr

namespace App

/-- Statement `camera.Down(x, y, shift, control)`. -/
def cameraDown (a : App) (x y : ℚ) (shift control : Bool) : App :=
  { a with camera := a.camera.Down x y shift control,
           calls := a.calls ++ [Call.cameraDown x y shift control] }

/-- Statement `camera.Up()`. -/
def cameraUp (a : App) : App :=
  { a with camera := a.camera.Up, calls := a.calls ++ [Call.cameraUp] }

/-- Statement `mover.Down(&lights[i], ...)`. -/
def moverDown (a : App) (i : Nat) : App :=
  { a with calls := a.calls ++ [Call.moverDown i] }

/-- Statement `glViewport(x, y, width, height)`. -/
def glViewport (a : App) (x y width height : Int) : App :=
  { a with calls := a.calls ++ [Call.glViewport x y width height] }

/-- Statement `camera.Resize(width, height)`. -/
def cameraResize (a : App) (width height : Int) : Option App :=
  (a.camera.Resize width height).map fun c =>
    { a with camera := c, calls := a.calls ++ [Call.cameraResize width height] }

/-- Statement `camera.Wheel(spin, shift)`. -/
def cameraWheel (r : WheelRule) (a : App) (spin : ℚ) (shift : Bool) : App :=
  { a with camera := a.camera.Wheel r spin shift,
           calls := a.calls ++ [Call.cameraWheel spin shift] }

/-- The loop `for (i = 0; i < n; i++) if (MouseOver(x, y, lights[i], ..))
{ picked = &mover; mover.Down(&lights[i], ..); }`, where `over i` is the
answer of `MouseOver` for light `i`. -/
def pickLights (n : Nat) (over : Nat → Bool) (a : App) : App :=
  (List.range n).foldl
    (fun a i => if over i then ({ a with picked := Picked.mover } : App).moverDown i else a) a

/-- State of a demo at start-up: camera over a `width` by `height` window,
nothing picked, no call made. -/
def start (width height : Int) : Option App :=
  (Camera.new width height).map fun c =>
    { camera := c, picked := Picked.null, winWidth := width, winHeight := height,
      calls := [] }

/-- The value of `start 800 800`: the start-up state of the demos with an
800 by 800 window. -/
def start800 : App :=
  { camera := { down := false, shift := false, control := false,
                width := 800, height := 800, aspect := 1 },
    picked := Picked.null, winWidth := 800, winHeight := 800, calls := [] }

end App

/-! ## `Assn-3-Shade3dLetter.cpp` -/

namespace Shade3dLetter

/-- Callback `MouseButton(x, y, left, down)`. -/
def MouseButton (e : ButtonEvent) (a : App) : App :=
  if e.left && e.down then a.cameraDown e.x e.y e.shift e.control
  else a.cameraUp

/-- Whether `Display` draws the arcball: `if (!Shift() && camera.down)`. -/
def DisplayArcball (shift : Bool) (a : App) : Bool :=
  !shift && a.camera.down

/-- Callback `Resize(width, height)`. -/
def Resize (width height : Int) (a : App) : Option App :=
  (a.glViewport 0 0 width height).cameraResize width height

/-- Callback `MouseWheel(spin)`: `camera.Wheel(spin, Shift())`, where `shift`
is what `Shift()` answers. -/
def MouseWheel (r : WheelRule) (spin : ℚ) (shift : Bool) (a : App) : App :=
  a.cameraWheel r spin shift

end Shade3dLetter

/-! ## `Assn-4-Texture3dLetter.cpp` -/

namespace Texture3dLetter

/-- Constant `nLights`. -/
def nLights : Nat := 2

/-- Callback `MouseButton(x, y, left, down)`; `left` and `down` are not read. -/
def MouseButton (over : Nat → Bool) (e : ButtonEvent) (a : App) : App :=
  let a := { a with picked := Picked.null }
  let a := a.pickLights nLights over
  if a.picked = Picked.null then
    ({ a with picked := Picked.camera } : App).cameraDown e.x e.y e.shift e.control
  else a

/-- Whether `Display` draws the arcball: `if (!Shift() && camera.down)`. -/
def DisplayArcball (shift : Bool) (a : App) : Bool :=
  !shift && a.camera.down

/-- Callback `Resize(width, height)`. -/
def Resize (width height : Int) (a : App) : Option App :=
  (a.glViewport 0 0 width height).cameraResize width height

end Texture3dLetter

/-! ## `Assn-5-SmoothMesh.cpp` -/

namespace SmoothMesh

/-- Constant `nLights`. -/
def nLights : Nat := 2

/-- Callback `MouseButton(x, y, left, down)`. -/
def MouseButton (over : Nat → Bool) (e : ButtonEvent) (a : App) : App :=
  let a := { a with picked := Picked.null }
  if e.left && e.down then
    let a := a.pickLights nLights over
    if a.picked = Picked.null then
      ({ a with picked := Picked.camera } : App).cameraDown e.x e.y e.shift e.control
    else a
  else a.cameraUp

/-- Whether `Display` draws the arcball:
`if (picked == &camera && !Shift())`. -/
def DisplayArcball (shift : Bool) (a : App) : Bool :=
  decide (a.picked = Picked.camera) && !shift

/-- Callback `Resize(width, height)`. -/
def Resize (width height : Int) (a : App) : Option App :=
  (a.cameraResize width height).map fun a => a.glViewport 0 0 width height

end SmoothMesh

/-! ## Callbacks of `Assn-7-Hierarchy.cpp` -/

namespace Hierarchy

/-- The globals of the Hierarchy demo: the shared ones, the three meshes and
`HMesh *pickedMesh`. -/
structure World (K : Type) where
  app : App
  scene : Scene K
  pickedMesh : Option MeshId
deriving DecidableEq, Repr

/-- The array `meshes`: `&dog, &bird, &hat`. -/
def meshes : List MeshId := [.dog, .bird, .hat]

/-- Callback `MouseButton(x, y, left, down)`, where `over m` is the answer of
`MouseOver(x, y, m->Origin(), camera.fullview)`. -/
def MouseButton {K : Type} (over : MeshId → Bool) (e : ButtonEvent) (w : World K) : World K :=
  let w := if e.left && e.down then
      { w with app := w.app.cameraDown e.x e.y e.shift e.control } else w
  let w := if e.left && !e.down then { w with app := w.app.cameraUp } else w
  if !e.left && e.down then
    meshes.foldl (fun w m => if over m then { w with pickedMesh := some m } else w)
      { w with pickedMesh := none }
  else w

/-- Whether `Display` draws the arcball: `if (camera.down) camera.Draw()`. -/
def DisplayArcball {K : Type} (w : World K) : Bool :=
  w.app.camera.down

/-- Callback `Resize(width, height)`. -/
def Resize (width height : Int) (a : App) : Option App :=
  (a.cameraResize width height).map fun a => a.glViewport 0 0 width height

end Hierarchy

/-! ## Callbacks of `Assn-8-BezierCurve.cpp` -/

namespace BezierCurve

/-- Constant `nPoints`, the size of `points`. -/
def nPoints : Nat := 4

/-- Callback `MouseButton(x, y, left, down)`; `over i` is the answer of `MouseOver`
for control point `i`. -/
def MouseButton (over : Nat → Bool) (e : ButtonEvent) (a : App) : App :=
  let a := { a with picked := Picked.null }
  if e.left && e.down then
    let a := a.pickLights nPoints over
    if a.picked = Picked.null then
      ({ a with picked := Picked.camera } : App).cameraDown e.x e.y e.shift e.control
    else a
  else a.cameraUp

/-- Whether `Display` draws the arcball: it has no such statement. -/
def DisplayArcball (_shift : Bool) (_a : App) : Bool := false

/-- Callback `Resize(width, height)`. -/
def Resize (width height : Int) (a : App) : Option App :=
  (a.cameraResize width height).map fun a => a.glViewport 0 0 width height

end BezierCurve

/-! ## `Assn-9-Tessellation.cpp` -/

namespace Tessellation

/-- Callback `MouseButton(x, y, left, down)`; `over` is the answer of `MouseOver` for
the light. `camera.Down(x, y, Shift())` leaves the control flag at its default
`false`. -/
def MouseButton (over : Bool) (e : ButtonEvent) (a : App) : App :=
  let a := { a with picked := Picked.null }
  let a := if e.left && !e.down then a.cameraUp else a
  if e.left && e.down then
    let a := if over then { a.moverDown 0 with picked := Picked.mover } else a
    if a.picked = Picked.null then
      { a.cameraDown e.x e.y e.shift false with picked := Picked.camera }
    else a
  else a

/-- Whether `Display` draws the arcball:
`if (picked == &camera && !camera.shift)`. -/
def DisplayArcball (a : App) : Bool :=
  decide (a.picked = Picked.camera) && !a.camera.shift

/-- Callback `Resize(width, height)`:
`camera.Resize(winWidth = width, winHeight = height)`, then `glViewport`. -/
def Resize (width height : Int) (a : App) : Option App :=
  (({ a with winWidth := width, winHeight := height } : App).cameraResize width height).map
    fun a => a.glViewport 0 0 width height

end Tessellation

/-! ## Callbacks of `Assn-10-Animation.cpp` -/

namespace Animation

/-- Callback `MouseButton(x, y, left, down)`. -/
def MouseButton (e : ButtonEvent) (a : App) : App :=
  let a := if e.left && e.down then a.cameraDown e.x e.y e.shift e.control else a
  if e.left && !e.down then a.cameraUp else a

/-- Whether `Display` draws the arcball: it has no such statement. -/
def DisplayArcball (_a : App) : Bool := false

/-- Callback `Resize(width, height)`. -/
def Resize (width height : Int) (a : App) : Option App :=
  (a.cameraResize width height).map fun a => a.glViewport 0 0 width height

end Animation

/-! ## Keyboard callbacks of `Assn-7-Hierarchy.cpp` -/

/-- Matrix times column vector, `operator*(mat4, vec4)`. -/
def mat4.mulVec {K : Type} [Add K] [Mul K] (m : mat4 K) (v : vec4 K) : vec4 K :=
  ⟨vec4.dot4 m.row0 v, vec4.dot4 m.row1 v, vec4.dot4 m.row2 v, vec4.dot4 m.row3 v⟩

/-- The transform builders of `VecMat.h` that `TestKey` calls; they are not
among the sources and are taken as parameters. -/
structure Transforms (K : Type) where
  Translate : vec3 K → mat4 K
  RotateX : K → mat4 K
  RotateY : K → mat4 K
  RotateZ : K → mat4 K
  Scale : K → mat4 K

/-- What `KeyDown` answers for the keys `TestKey` asks about, and `Shift()`. -/
structure KeyState where
  left : Bool
  right : Bool
  up : Bool
  down : Bool
  x : Bool
  y : Bool
  z : Bool
  s : Bool
  shift : Bool
deriving DecidableEq, Repr

namespace Hierarchy

/-- Method `HMesh::Origin()`: `toWorld * vec4(0, 0, 0, 1)`, first three
entries. -/
def HMesh.Origin {K : Type} [Zero K] [One K] [Add K] [Mul K] (h : HMesh K) : vec3 K :=
  let v := h.toWorld.mulVec ⟨0, 0, 0, 1⟩
  ⟨v.x, v.y, v.z⟩

/-- The assignment `dog.toWorld = bird.toWorld = hat.toWorld = mat4(1)`. -/
def Scene.reset {K : Type} [Zero K] [One K] (s : Scene K) : Scene K :=
  { dog := { s.dog with toWorld := 1 },
    bird := { s.bird with toWorld := 1 },
    hat := { s.hat with toWorld := 1 } }

/-- Callback `Keyboard(k, press, shift, control)`. The second component lists
what `MWrite` prints for `P`, as (name, matrix) pairs; `modelview` is
`camera.modelview`. -/
def Keyboard {K : Type} [Zero K] [One K] (modelview : mat4 K) (k : Int)
    (press _shift _control : Bool) (w : World K) : World K × List (String × mat4 K) :=
  if press then
    let w := if k = ('R'.toNat : Int) then { w with scene := w.scene.reset } else w
    let printed := if k = ('P'.toNat : Int) then
        [("dog", w.scene.dog.toWorld), ("bird", w.scene.bird.toWorld),
         ("hat", w.scene.hat.toWorld), ("modelview", modelview)]
      else []
    (w, printed)
  else (w, [])

/-- The matrix `mT` that `TestKey` builds for the picked mesh with origin
`origin`; `rot` is the value of `60 * (M_PI / 180.0f)`. -/
def keyTransform {K : Type} [Field K] (T : Transforms K) (rot : K) (keys : KeyState)
    (origin : vec3 K) : mat4 K :=
  let mT : mat4 K := 1
  let translationStep : K := 1 / 100
  let scaleFactor : K := if keys.shift then 9 / 10 else 11 / 10
  let mT :=
    if keys.x then
      let mT := if keys.left then T.Translate ⟨-translationStep, 0, 0⟩ * mT else mT
      let mT := if keys.right then T.Translate ⟨translationStep, 0, 0⟩ * mT else mT
      let mT := if keys.up then
          T.Translate origin * T.RotateX rot * T.Translate (-origin) * mT else mT
      if keys.down then
        T.Translate origin * T.RotateX (-rot) * T.Translate (-origin) * mT else mT
    else if keys.y then
      let mT := if keys.left then T.Translate ⟨0, -translationStep, 0⟩ * mT else mT
      let mT := if keys.right then T.Translate ⟨0, translationStep, 0⟩ * mT else mT
      let mT := if keys.up then
          T.Translate origin * T.RotateY rot * T.Translate (-origin) * mT else mT
      if keys.down then
        T.Translate origin * T.RotateY (-rot) * T.Translate (-origin) * mT else mT
    else if keys.z then
      let mT := if keys.left then T.Translate ⟨0, 0, -translationStep⟩ * mT else mT
      let mT := if keys.right then T.Translate ⟨0, 0, translationStep⟩ * mT else mT
      let mT := if keys.up then
          T.Translate origin * T.RotateZ rot * T.Translate (-origin) * mT else mT
      if keys.down then
        T.Translate origin * T.RotateZ (-rot) * T.Translate (-origin) * mT else mT
    else mT
  if keys.s then T.Scale scaleFactor * mT else mT

/-- Function `TestKey()`: nothing when no mesh is picked; otherwise
`pickedMesh->ApplyTransform(mT)`. `none` means the fuel of `ApplyTransform`
ran out. -/
def TestKey {K : Type} [Field K] (T : Transforms K) (rot : K) (keys : KeyState)
    (fuel : Nat) (w : World K) : Option (World K) :=
  match w.pickedMesh with
  | none => some w
  | some pm =>
    (HMesh.ApplyTransform fuel w.scene pm
        (keyTransform T rot keys (w.scene.get pm).Origin)).map
      fun sc => { w with scene := sc }

end Hierarchy

/-! ## Drawing the curve (`Assn-8-BezierCurve.cpp`) and the flight path -/

/-- Method `Bezier::DrawCurve()`: the list of `Line(p0, p1, ..)` calls, each as
the pair of its end points. The loop variable `i` runs from `1` to
`SEGMENT_COUNT`; the state is `p0` and the lines drawn so far. -/
def BezierCurve.Bezier.DrawCurve {K : Type} [Field K] (b : BezierCurve.Bezier K) :
    List (vec3 K × vec3 K) :=
  ((List.range BezierCurve.SEGMENT_COUNT).foldl
    (fun (st : vec3 K × List (vec3 K × vec3 K)) (k : Nat) =>
      let i : Nat := k + 1
      let t : K := ((i : Nat) : K) / ((BezierCurve.SEGMENT_COUNT : Nat) : K)
      let p1 := b.ComputePointOnCurve t
      (p1, st.2 ++ [(st.1, p1)]))
    (b.ComputePointOnCurve 0, [])).2

/-- Element `bezier[k]` of the Animation demo. -/
def Animation.bezierAt (K : Type) [Field K] (k : Nat) : Animation.Bezier K :=
  (Animation.bezier K).getD k ⟨[]⟩

/-! ## Fitting the letter: `Bounds`, `StandardizePoints`, `SetUvs` -/

/-- Two floats `x, y`. -/
structure vec2 (K : Type) where
  x : K
  y : K
deriving DecidableEq, Repr

instance {K : Type} [Add K] : Add (vec2 K) := ⟨fun a b => ⟨a.x + b.x, a.y + b.y⟩⟩
instance {K : Type} [Sub K] : Sub (vec2 K) := ⟨fun a b => ⟨a.x - b.x, a.y - b.y⟩⟩
instance {K : Type} [Mul K] : HMul K (vec2 K) (vec2 K) := ⟨fun s a => ⟨s * a.x, s * a.y⟩⟩
instance {K : Type} [Div K] : HDiv (vec2 K) K (vec2 K) := ⟨fun a s => ⟨a.x / s, a.y / s⟩⟩
instance {K : Type} [Zero K] : Zero (vec2 K) := ⟨⟨0, 0⟩⟩
instance {K : Type} [Div K] : HDiv (vec3 K) K (vec3 K) :=
  ⟨fun a s => ⟨a.x / s, a.y / s, a.z / s⟩⟩

/-- Componentwise minimum of two `vec3`. -/
def vec3.min {K : Type} [Min K] (a b : vec3 K) : vec3 K :=
  ⟨Min.min a.x b.x, Min.min a.y b.y, Min.min a.z b.z⟩

/-- Componentwise maximum of two `vec3`. -/
def vec3.max {K : Type} [Max K] (a b : vec3 K) : vec3 K :=
  ⟨Max.max a.x b.x, Max.max a.y b.y, Max.max a.z b.z⟩

/-- Componentwise minimum of two `vec2`. -/
def vec2.min {K : Type} [Min K] (a b : vec2 K) : vec2 K :=
  ⟨Min.min a.x b.x, Min.min a.y b.y⟩

/-- Componentwise maximum of two `vec2`. -/
def vec2.max {K : Type} [Max K] (a b : vec2 K) : vec2 K :=
  ⟨Max.max a.x b.x, Max.max a.y b.y⟩

/-- Modelled from the spec: `Bounds(points, nPoints, min, max)` of the course
library (not among the sources), as its callers and the claim on
`StandardizePoints` describe it: `min` and `max` become the componentwise
minimum and maximum of the points, and the value returned is the largest
extent `max - min` over the axes. The result is `(range, min, max)`. -/
def Bounds {K : Type} [LinearOrder K] [Zero K] [Sub K] (points : List (vec3 K)) :
    K × vec3 K × vec3 K :=
  match points with
  | [] => (0, 0, 0)
  | p :: ps =>
    let mn := ps.foldl vec3.min p
    let mx := ps.foldl vec3.max p
    (Max.max (mx.x - mn.x) (Max.max (mx.y - mn.y) (mx.z - mn.z)), mn, mx)

/-- Modelled from the spec: the `vec2` overload of `Bounds`. -/
def Bounds2 {K : Type} [LinearOrder K] [Zero K] [Sub K] (points : List (vec2 K)) :
    K × vec2 K × vec2 K :=
  match points with
  | [] => (0, 0, 0)
  | p :: ps =>
    let mn := ps.foldl vec2.min p
    let mx := ps.foldl vec2.max p
    (Max.max (mx.x - mn.x) (mx.y - mn.y), mn, mx)

namespace Rotate2dLetter

/-- The global `points`: the 17 vertices of the flat letter. -/
def points : List (vec2 ℚ) :=
  [
   ⟨200, 200⟩, ⟨150, 250⟩, ⟨150, 150⟩, ⟨50, 250⟩, ⟨50, 350⟩,
   ⟨150, 350⟩, ⟨50, 150⟩, ⟨50, 50⟩, ⟨150, 50⟩, ⟨250, 150⟩,
   ⟨250, 250⟩, ⟨250, 350⟩, ⟨350, 350⟩, ⟨350, 250⟩, ⟨350, 150⟩,
   ⟨350, 50⟩, ⟨250, 50⟩]

/-- Function `StandardizePoints(s)`: the new contents of `points`. -/
def StandardizePoints {K : Type} [LinearOrderedField K] (s : K) (points : List (vec2 K)) :
    List (vec2 K) :=
  let (range, min, max) := Bounds2 points
  let scale := 2 * s / range
  let center := (min + max) / (2 : K)
  points.map fun p => scale * (p - center)

end Rotate2dLetter

namespace Shade3dLetter

/-- The global `points`: 17 front vertices (`z = 0`) and 17 back vertices
(`z = -50`). -/
def points : List (vec3 ℚ) :=
  [
   ⟨200, 200, 0⟩, ⟨150, 250, 0⟩, ⟨150, 150, 0⟩, ⟨50, 250, 0⟩,
   ⟨50, 350, 0⟩, ⟨150, 350, 0⟩, ⟨50, 150, 0⟩, ⟨50, 50, 0⟩,
   ⟨150, 50, 0⟩, ⟨250, 150, 0⟩, ⟨250, 250, 0⟩, ⟨250, 350, 0⟩,
   ⟨350, 350, 0⟩, ⟨350, 250, 0⟩, ⟨350, 150, 0⟩, ⟨350, 50, 0⟩,
   ⟨250, 50, 0⟩, ⟨200, 200, -50⟩, ⟨150, 250, -50⟩, ⟨150, 150, -50⟩,
   ⟨50, 250, -50⟩, ⟨50, 350, -50⟩, ⟨150, 350, -50⟩, ⟨50, 150, -50⟩,
   ⟨50, 50, -50⟩, ⟨150, 50, -50⟩, ⟨250, 150, -50⟩, ⟨250, 250, -50⟩,
   ⟨250, 350, -50⟩, ⟨350, 350, -50⟩, ⟨350, 250, -50⟩, ⟨350, 150, -50⟩,
   ⟨350, 50, -50⟩, ⟨250, 50, -50⟩]

/-- Function `StandardizePoints(s)`: the new contents of `points`. -/
def StandardizePoints {K : Type} [LinearOrderedField K] (s : K) (points : List (vec3 K)) :
    List (vec3 K) :=
  let (range, min, max) := Bounds points
  let scale := 2 * s / range
  let center := (min + max) / (2 : K)
  points.map fun p => scale * (p - center)

end Shade3dLetter

namespace Texture3dLetter

/-- The global `points`: the same 34 vertices as in the Shade3dLetter demo. -/
def points : List (vec3 ℚ) :=
  [
   ⟨200, 200, 0⟩, ⟨150, 250, 0⟩, ⟨150, 150, 0⟩, ⟨50, 250, 0⟩,
   ⟨50, 350, 0⟩, ⟨150, 350, 0⟩, ⟨50, 150, 0⟩, ⟨50, 50, 0⟩,
   ⟨150, 50, 0⟩, ⟨250, 150, 0⟩, ⟨250, 250, 0⟩, ⟨250, 350, 0⟩,
   ⟨350, 350, 0⟩, ⟨350, 250, 0⟩, ⟨350, 150, 0⟩, ⟨350, 50, 0⟩,
   ⟨250, 50, 0⟩, ⟨200, 200, -50⟩, ⟨150, 250, -50⟩, ⟨150, 150, -50⟩,
   ⟨50, 250, -50⟩, ⟨50, 350, -50⟩, ⟨150, 350, -50⟩, ⟨50, 150, -50⟩,
   ⟨50, 50, -50⟩, ⟨150, 50, -50⟩, ⟨250, 150, -50⟩, ⟨250, 250, -50⟩,
   ⟨250, 350, -50⟩, ⟨350, 350, -50⟩, ⟨350, 250, -50⟩, ⟨350, 150, -50⟩,
   ⟨350, 50, -50⟩, ⟨250, 50, -50⟩]

/-- Function `SetUvs()`: the contents of `uvs` it leaves. The two quotients
are checked: `none` is a division by zero. -/
def SetUvs (points : List (vec3 ℚ)) : Option (List (vec2 ℚ)) :=
  let (_, min, max) := Bounds points
  let dif := max - min
  points.mapM fun p =>
    (divChecked (p.x - min.x) dif.x).bind fun u =>
      (divChecked (p.y - min.y) dif.y).map fun v => (⟨u, v⟩ : vec2 ℚ)

/-- Function `StandardizePoints(s)`: the new contents of `points`. -/
def StandardizePoints {K : Type} [LinearOrderedField K] (s : K) (points : List (vec3 K)) :
    List (vec3 K) :=
  let (range, min, max) := Bounds points
  let scale := 2 * s / range
  let center := (min + max) / (2 : K)
  points.map fun p => scale * (p - center)

end Texture3dLetter

/-! ## The triangles of the 3D letter -/

/-- Three vertex indices `i1, i2, i3` of a triangle (`int3` of `VecMat.h`). -/
structure int3 where
  i1 : Int
  i2 : Int
  i3 : Int
deriving DecidableEq, Repr

/-- The global `triangles` of the Shade3dLetter demo: 16 front, 16 back and
36 side triangles. -/
def Shade3dLetter.triangles : List int3 :=
  [
   -- front triangles
   ⟨0, 1, 2⟩, ⟨0, 2, 9⟩, ⟨0, 9, 10⟩, ⟨0, 1, 10⟩,
   ⟨1, 4, 5⟩, ⟨1, 3, 4⟩, ⟨1, 2, 3⟩, ⟨2, 3, 6⟩,
   ⟨2, 6, 7⟩, ⟨2, 7, 8⟩, ⟨9, 15, 16⟩, ⟨9, 14, 15⟩,
   ⟨9, 10, 13⟩, ⟨9, 13, 14⟩, ⟨10, 11, 12⟩, ⟨10, 12, 13⟩,
   -- back triangles: offset by number of origin vertices (17), reverse order
   ⟨17, 19, 18⟩, ⟨17, 26, 19⟩, ⟨17, 27, 26⟩, ⟨17, 27, 18⟩,
   ⟨18, 22, 21⟩, ⟨18, 21, 20⟩, ⟨18, 20, 19⟩, ⟨19, 23, 20⟩,
   ⟨19, 24, 23⟩, ⟨19, 25, 24⟩, ⟨26, 33, 32⟩, ⟨26, 32, 31⟩,
   ⟨26, 30, 27⟩, ⟨26, 31, 30⟩, ⟨27, 29, 28⟩, ⟨27, 30, 29⟩,
   -- side triangles
   ⟨1, 10, 18⟩, ⟨18, 10, 27⟩, ⟨1, 2, 19⟩, ⟨1, 19, 18⟩,
   ⟨1, 5, 22⟩, ⟨1, 22, 18⟩, ⟨2, 8, 19⟩, ⟨19, 8, 25⟩,
   ⟨2, 9, 19⟩, ⟨19, 9, 26⟩, ⟨3, 4, 21⟩, ⟨21, 3, 20⟩,
   ⟨3, 6, 20⟩, ⟨20, 6, 23⟩, ⟨4, 5, 21⟩, ⟨21, 5, 22⟩,
   ⟨6, 7, 23⟩, ⟨23, 7, 24⟩, ⟨7, 8, 25⟩, ⟨25, 7, 24⟩,
   ⟨9, 10, 27⟩, ⟨27, 9, 26⟩, ⟨10, 11, 28⟩, ⟨28, 10, 27⟩,
   ⟨11, 12, 28⟩, ⟨28, 12, 29⟩, ⟨12, 13, 29⟩, ⟨29, 13, 30⟩,
   ⟨13, 14, 30⟩, ⟨30, 14, 31⟩, ⟨14, 15, 31⟩, ⟨31, 15, 32⟩,
   ⟨15, 16, 33⟩, ⟨33, 15, 32⟩, ⟨16, 9, 26⟩, ⟨26, 16, 33⟩]

/-- The global `triangles` of the Texture3dLetter demo. -/
def Texture3dLetter.triangles : List int3 :=
  [
   -- front triangles
   ⟨0, 1, 2⟩, ⟨0, 2, 9⟩, ⟨0, 9, 10⟩, ⟨0, 1, 10⟩,
   ⟨1, 4, 5⟩, ⟨1, 3, 4⟩, ⟨1, 2, 3⟩, ⟨2, 3, 6⟩,
   ⟨2, 6, 7⟩, ⟨2, 7, 8⟩, ⟨9, 15, 16⟩, ⟨9, 14, 15⟩,
   ⟨9, 10, 13⟩, ⟨9, 13, 14⟩, ⟨10, 11, 12⟩, ⟨10, 12, 13⟩,
   -- back triangles: offset by number of origin vertices (17), reverse order
   ⟨17, 19, 18⟩, ⟨17, 26, 19⟩, ⟨17, 27, 26⟩, ⟨17, 27, 18⟩,
   ⟨18, 22, 21⟩, ⟨18, 21, 20⟩, ⟨18, 20, 19⟩, ⟨19, 23, 20⟩,
   ⟨19, 24, 23⟩, ⟨19, 25, 24⟩, ⟨26, 33, 32⟩, ⟨26, 32, 31⟩,
   ⟨26, 30, 27⟩, ⟨26, 31, 30⟩, ⟨27, 29, 28⟩, ⟨27, 30, 29⟩,
   -- side triangles
   ⟨1, 10, 18⟩, ⟨18, 10, 27⟩, ⟨1, 2, 19⟩, ⟨1, 19, 18⟩,
   ⟨1, 5, 22⟩, ⟨1, 22, 18⟩, ⟨2, 8, 19⟩, ⟨19, 8, 25⟩,
   ⟨2, 9, 19⟩, ⟨19, 9, 26⟩, ⟨3, 4, 21⟩, ⟨21, 3, 20⟩,
   ⟨3, 6, 20⟩, ⟨20, 6, 23⟩, ⟨4, 5, 21⟩, ⟨21, 5, 22⟩,
   ⟨6, 7, 23⟩, ⟨23, 7, 24⟩, ⟨7, 8, 25⟩, ⟨25, 7, 24⟩,
   ⟨9, 10, 27⟩, ⟨27, 9, 26⟩, ⟨10, 11, 28⟩, ⟨28, 10, 27⟩,
   ⟨11, 12, 28⟩, ⟨28, 12, 29⟩, ⟨12, 13, 29⟩, ⟨29, 13, 30⟩,
   ⟨13, 14, 30⟩, ⟨30, 14, 31⟩, ⟨14, 15, 31⟩, ⟨31, 15, 32⟩,
   ⟨15, 16, 33⟩, ⟨33, 15, 32⟩, ⟨16, 9, 26⟩, ⟨26, 16, 33⟩]

/-! ## Binary32 arithmetic

The definitions above embed `float` as exact arithmetic. What follows is the
arithmetic of IEEE 754 binary32 itself, each operation rounded to nearest with
ties to even, and the bodies of the same functions over it. -/

/-- A finite binary32 value `m * 2 ^ e` in lowest terms: `m` is odd, or `m = 0`
and `e = 0`. The two zeros are not told apart; overflow, underflow to
subnormals and NaN are not represented. -/
structure F32 where
  m : Int
  e : Int
deriving DecidableEq, Repr

namespace F32

/-- Number of binary digits of `n`, with fuel. -/
def bitsAux : Nat → Nat → Nat
  | 0, _ => 0
  | fuel + 1, n => if n = 0 then 0 else bitsAux fuel (n / 2) + 1

/-- Number of binary digits of `n`. -/
def bits (n : Nat) : Nat := bitsAux n n

/-- Remove trailing zero bits of `n`, raising the exponent. -/
def strip : Nat → Nat → Int → Nat × Int
  | 0, n, e => (n, e)
  | fuel + 1, n, e => if n % 2 = 0 then strip fuel (n / 2) (e + 1) else (n, e)

/-- The value `± n * 2 ^ e` in lowest terms. -/
def make (neg : Bool) (n : Nat) (e : Int) : F32 :=
  if n = 0 then ⟨0, 0⟩
  else
    let r := strip (bits n) n e
    ⟨if neg then -(r.1 : Int) else (r.1 : Int), r.2⟩

/-- Round `± (n + d) * 2 ^ e` to 24 significant bits, to nearest with ties to
even, where `0 ≤ d < 1` and `d > 0` exactly when `sticky`; with `sticky` the
callers pass an `n` of at least 26 bits. -/
def round (neg : Bool) (n : Nat) (e : Int) (sticky : Bool) : F32 :=
  let len := bits n
  if len ≤ 24 then make neg n e
  else
    let sh := len - 24
    let q := n / 2 ^ sh
    let r := n % 2 ^ sh
    let half := 2 ^ (sh - 1)
    let up := decide (half < r) || (decide (r = half) && (sticky || decide (q % 2 = 1)))
    make neg (if up then q + 1 else q) (e + sh)

/-- Sum, rounded. -/
def add (a b : F32) : F32 :=
  let e := min a.e b.e
  let s : Int := a.m * (2 ^ (a.e - e).toNat : Nat) + b.m * (2 ^ (b.e - e).toNat : Nat)
  round (decide (s < 0)) s.natAbs e false

/-- Unary minus (exact). -/
def neg (a : F32) : F32 := ⟨-a.m, a.e⟩

/-- Difference, rounded. -/
def sub (a b : F32) : F32 := add a (neg b)

/-- Product, rounded. -/
def mul (a b : F32) : F32 :=
  round (decide (a.m < 0) != decide (b.m < 0)) (a.m.natAbs * b.m.natAbs) (a.e + b.e) false

/-- Quotient, rounded; a zero divisor (an infinity or NaN in binary32) is not
represented and gives `0` here. -/
def div (a b : F32) : F32 :=
  if b.m = 0 then ⟨0, 0⟩
  else
    let k := 26 + bits b.m.natAbs
    let num := a.m.natAbs * 2 ^ k
    round (decide (a.m < 0) != decide (b.m < 0)) (num / b.m.natAbs) (a.e - b.e - k)
      (decide (num % b.m.natAbs ≠ 0))

/-- Integer square root, bit by bit from bit `i - 1` down. -/
def isqrt : Nat → Nat → Nat → Nat
  | 0, _, r => r
  | i + 1, n, r => if (r + 2 ^ i) * (r + 2 ^ i) ≤ n then isqrt i n (r + 2 ^ i) else isqrt i n r

/-- Square root, rounded (`sqrtf`); of a negative number (NaN in binary32) it
gives `0` here. -/
def sqrt (a : F32) : F32 :=
  if a.m ≤ 0 then ⟨0, 0⟩
  else
    let s : Nat := if (a.e - 52) % 2 = 0 then 52 else 53
    let n := a.m.natAbs * 2 ^ s
    let r := isqrt (bits n / 2 + 1) n 0
    round false r ((a.e - s) / 2) (decide (r * r ≠ n))

/-- Conversion of a non-negative `int` to `float`. -/
def ofNat (n : Nat) : F32 := round false n 0 false

/-- Comparison `a < b`. -/
def lt (a b : F32) : Bool :=
  let e := min a.e b.e
  decide (a.m * (2 ^ (a.e - e).toNat : Nat) < b.m * (2 ^ (b.e - e).toNat : Nat))

/-- The rational number a value stands for. -/
def toRat (a : F32) : ℚ := (a.m : ℚ) * (2 : ℚ) ^ a.e

instance : Add F32 := ⟨add⟩
instance : Sub F32 := ⟨sub⟩
instance : Mul F32 := ⟨mul⟩
instance : Div F32 := ⟨div⟩
instance : Neg F32 := ⟨neg⟩
instance : Zero F32 := ⟨⟨0, 0⟩⟩
instance (n : Nat) : OfNat F32 n := ⟨ofNat n⟩
instance : LT F32 := ⟨fun a b => lt a b = true⟩
instance : LE F32 := ⟨fun a b => lt b a = false⟩
instance (a b : F32) : Decidable (a < b) := inferInstanceAs (Decidable (lt a b = true))
instance (a b : F32) : Decidable (a ≤ b) := inferInstanceAs (Decidable (lt b a = false))
instance : Min F32 := ⟨fun a b => if lt b a then b else a⟩
instance : Max F32 := ⟨fun a b => if lt a b then b else a⟩

end F32

/-- The components of a binary32 vector as rational numbers. -/
def vec3.toRat (v : vec3 F32) : vec3 ℚ := ⟨v.x.toRat, v.y.toRat, v.z.toRat⟩

namespace Binary32

/-- Method `Bezier::Position(float t)` of the Animation demo in binary32. -/
def Position (b : Animation.Bezier F32) (t : F32) : vec3 F32 :=
  let t2 := t * t
  let t3 := t * t2
  (-t3 + 3 * t2 - 3 * t + 1) * at3 b.pts 0 +
    (3 * t3 - 6 * t2 + 3 * t) * at3 b.pts 1 + (3 * t2 - 3 * t3) * at3 b.pts 2 +
    t3 * at3 b.pts 3

/-- Method `Bezier::Velocity(float t)` in binary32. -/
def Velocity (b : Animation.Bezier F32) (t : F32) : vec3 F32 :=
  let t2 := t * t
  (-3 * t2 + 6 * t - 3) * at3 b.pts 0 +
    (9 * t2 - 12 * t + 3) * at3 b.pts 1 +
    (6 * t - 9 * t2) * at3 b.pts 2 + (3 * t2) * at3 b.pts 3

/-- Method `Bezier::ComputePointOnCurve(float t)` of the BezierCurve demo in
binary32. -/
def ComputePointOnCurve (b : BezierCurve.Bezier F32) (t : F32) : vec3 F32 :=
  let s := 1 - t
  let tt := t * t
  let ss := s * s
  let ttt := tt * t
  let sss := ss * s
  (sss * at3 b.ctrlPoints 0) + ((3 * ss * t) * at3 b.ctrlPoints 1) +
    ((3 * s * tt) * at3 b.ctrlPoints 2) + ttt * at3 b.ctrlPoints 3

/-- The BezierCurve demo's `points` as binary32 values. -/
def curvePoints : List (vec3 F32) :=
  [⟨-1, 1, 0⟩, ⟨-1, -1, 0⟩, ⟨1, 1, 0⟩, ⟨1, -1, 0⟩]

/-- The first four entries of the Animation demo's `path` in binary32:
`2 / 3.f` is the rounded quotient, `.1f` the rounded decimal. -/
def path : List (vec3 F32) :=
  [⟨2 / 3, 0, 2 / 3⟩,
   ⟨1, 0, 1 / 3⟩,
   ⟨1, 1 / 10, -1 / 3⟩,
   ⟨2 / 3, 1 / 10, -2 / 3⟩]

/-- Function `normalize(v)` of `VecMat.h` in binary32. The header is not among
the sources: with `recip` the vector is multiplied by `1 / length(v)`,
otherwise each component is divided by `length(v)`. -/
def normalize (recip : Bool) (v : vec3 F32) : vec3 F32 :=
  if recip then (1 / length F32.sqrt v) * v else v / length F32.sqrt v

/-- Method `Bezier::Frame(float t)` in binary32. -/
def Frame (recip : Bool) (b : Animation.Bezier F32) (t : F32) : mat4 F32 :=
  let v := normalize recip (Velocity b t)
  let n := normalize recip (cross v ⟨0, 1, 0⟩)
  let bn := normalize recip (cross n v)
  let p := Position b t
  ⟨⟨n.get 0, bn.get 0, -v.get 0, p.get 0⟩,
   ⟨n.get 1, bn.get 1, -v.get 1, p.get 1⟩,
   ⟨n.get 2, bn.get 2, -v.get 2, p.get 2⟩,
   ⟨0, 0, 0, 1⟩⟩

/-- Modelled from the spec: `Bounds` in binary32, as `Graphics.Bounds`. -/
def Bounds (points : List (vec3 F32)) : F32 × vec3 F32 × vec3 F32 :=
  match points with
  | [] => (0, 0, 0)
  | p :: ps =>
    let mn := ps.foldl vec3.min p
    let mx := ps.foldl vec3.max p
    (Max.max (mx.x - mn.x) (Max.max (mx.y - mn.y) (mx.z - mn.z)), mn, mx)

/-- Function `StandardizePoints(s)` of the 3D letter demos in binary32. -/
def StandardizePoints (s : F32) (points : List (vec3 F32)) : List (vec3 F32) :=
  let (range, min, max) := Bounds points
  let scale := 2 * s / range
  let center := (min + max) / (2 : F32)
  points.map fun p => scale * (p - center)

/-- The 34 vertices of the 3D letter as binary32 values. -/
def points : List (vec3 F32) :=
  [
   ⟨200, 200, 0⟩, ⟨150, 250, 0⟩, ⟨150, 150, 0⟩, ⟨50, 250, 0⟩,
   ⟨50, 350, 0⟩, ⟨150, 350, 0⟩, ⟨50, 150, 0⟩, ⟨50, 50, 0⟩,
   ⟨150, 50, 0⟩, ⟨250, 150, 0⟩, ⟨250, 250, 0⟩, ⟨250, 350, 0⟩,
   ⟨350, 350, 0⟩, ⟨350, 250, 0⟩, ⟨350, 150, 0⟩, ⟨350, 50, 0⟩,
   ⟨250, 50, 0⟩, ⟨200, 200, -50⟩, ⟨150, 250, -50⟩, ⟨150, 150, -50⟩,
   ⟨50, 250, -50⟩, ⟨50, 350, -50⟩, ⟨150, 350, -50⟩, ⟨50, 150, -50⟩,
   ⟨50, 50, -50⟩, ⟨150, 50, -50⟩, ⟨250, 150, -50⟩, ⟨250, 250, -50⟩,
   ⟨250, 350, -50⟩, ⟨350, 350, -50⟩, ⟨350, 250, -50⟩, ⟨350, 150, -50⟩,
   ⟨350, 50, -50⟩, ⟨250, 50, -50⟩]

end Binary32

/-! ## What the camera gesture asks of a mouse-button callback -/

/-- The gesture discipline on one callback `H`: the calls it adds contain
`camera.Down` only when the event is a left-button press, and on a left-button
release they contain `camera.Up` and the camera ends `Idle`. -/
def GestureContract (H : ButtonEvent → App → App) : Prop :=
  ∀ e a, ∃ more, (H e a).calls = a.calls ++ more ∧
    (∀ x y s c, Call.cameraDown x y s c ∈ more → e.left = true ∧ e.down = true) ∧
    (e.left = true → e.down = false →
      Call.cameraUp ∈ more ∧ (H e a).camera.down = false)

/-- The clamping promise on one resize callback `R`: it never fails, and the
size the camera ends with is the given one raised to at least 1 in each
direction, so the aspect ratio divides by a non-zero height. -/
def ResizeClamps (R : Int → Int → App → Option App) : Prop :=
  ∀ width height a, ∃ a1, R width height a = some a1 ∧
    a1.camera.width = max width 1 ∧ a1.camera.height = max height 1 ∧
    1 ≤ a1.camera.width ∧ 1 ≤ a1.camera.height ∧
    (a1.camera.height : ℚ) ≠ 0 ∧
    a1.camera.aspect = (a1.camera.width : ℚ) / (a1.camera.height : ℚ)

/-- The cubic Bernstein form named by the specification:
`(1-t)^3 p0 + 3 (1-t)^2 t p1 + 3 (1-t) t^2 p2 + t^3 p3`. -/
def bernsteinSpec {K : Type} [CommRing K] (p0 p1 p2 p3 : vec3 K) (t : K) : vec3 K :=
  ((1 - t) ^ 3 * p0 + (3 * (1 - t) ^ 2 * t) * p1 + (3 * (1 - t) * t ^ 2) * p2) + t ^ 3 * p3

/-! ## Lemmas on vectors -/

theorem vec3.ext_iff3 {K : Type} (a b : vec3 K) :
    a = b ↔ a.x = b.x ∧ a.y = b.y ∧ a.z = b.z := by
  cases a; cases b; simp

@[simp] theorem vec3.add_x {K : Type} [Add K] (a b : vec3 K) : (a + b).x = a.x + b.x := rfl
@[simp] theorem vec3.add_y {K : Type} [Add K] (a b : vec3 K) : (a + b).y = a.y + b.y := rfl
@[simp] theorem vec3.add_z {K : Type} [Add K] (a b : vec3 K) : (a + b).z = a.z + b.z := rfl
@[simp] theorem vec3.sub_x {K : Type} [Sub K] (a b : vec3 K) : (a - b).x = a.x - b.x := rfl
@[simp] theorem vec3.sub_y {K : Type} [Sub K] (a b : vec3 K) : (a - b).y = a.y - b.y := rfl
@[simp] theorem vec3.sub_z {K : Type} [Sub K] (a b : vec3 K) : (a - b).z = a.z - b.z := rfl
@[simp] theorem vec3.neg_x {K : Type} [Neg K] (a : vec3 K) : (-a).x = -a.x := rfl
@[simp] theorem vec3.neg_y {K : Type} [Neg K] (a : vec3 K) : (-a).y = -a.y := rfl
@[simp] theorem vec3.neg_z {K : Type} [Neg K] (a : vec3 K) : (-a).z = -a.z := rfl
@[simp] theorem vec3.smul_x {K : Type} [Mul K] (s : K) (a : vec3 K) : (s * a).x = s * a.x := rfl
@[simp] theorem vec3.smul_y {K : Type} [Mul K] (s : K) (a : vec3 K) : (s * a).y = s * a.y := rfl
@[simp] theorem vec3.smul_z {K : Type} [Mul K] (s : K) (a : vec3 K) : (s * a).z = s * a.z := rfl
@[simp] theorem vec3.zero_x {K : Type} [Zero K] : (0 : vec3 K).x = 0 := rfl
@[simp] theorem vec3.zero_y {K : Type} [Zero K] : (0 : vec3 K).y = 0 := rfl
@[simp] theorem vec3.zero_z {K : Type} [Zero K] : (0 : vec3 K).z = 0 := rfl

@[simp] theorem at3_zero {K : Type} [Zero K] (p : vec3 K) (r : List (vec3 K)) :
    at3 (p :: r) 0 = p := rfl

@[simp] theorem at3_one {K : Type} [Zero K] (p q : vec3 K) (r : List (vec3 K)) :
    at3 (p :: q :: r) 1 = q := rfl

@[simp] theorem at3_two {K : Type} [Zero K] (p q u : vec3 K) (r : List (vec3 K)) :
    at3 (p :: q :: u :: r) 2 = u := rfl

@[simp] theorem at3_three {K : Type} [Zero K] (p q u v : vec3 K) (r : List (vec3 K)) :
    at3 (p :: q :: u :: v :: r) 3 = v := rfl

/-! ## Bezier evaluation -/

/-- C1: for every four control points (followed by anything else in the
array), `Position(0)` is `pts[0]` and `Position(1)` is `pts[3]`; the same holds
for `ComputePointOnCurve` of the BezierCurve demo. -/
theorem bezier_endpoints {K : Type} [CommRing K] (p0 p1 p2 p3 : vec3 K)
    (rest : List (vec3 K)) :
    Animation.Bezier.Position ⟨p0 :: p1 :: p2 :: p3 :: rest⟩ 0 = p0 ∧
    Animation.Bezier.Position ⟨p0 :: p1 :: p2 :: p3 :: rest⟩ 1 = p3 ∧
    BezierCurve.Bezier.ComputePointOnCurve ⟨[p0, p1, p2, p3]⟩ 0 = p0 ∧
    BezierCurve.Bezier.ComputePointOnCurve ⟨[p0, p1, p2, p3]⟩ 1 = p3 := by
  refine ⟨?_, ?_, ?_, ?_⟩ <;>
    (rw [vec3.ext_iff3]
     simp only [Animation.Bezier.Position, BezierCurve.Bezier.ComputePointOnCurve,
       at3_zero, at3_one, at3_two, at3_three, vec3.add_x, vec3.add_y, vec3.add_z,
       vec3.smul_x, vec3.smul_y, vec3.smul_z]
     refine ⟨?_, ?_, ?_⟩ <;> ring)

/-- C2: with the BezierCurve demo's control points the constructor succeeds
and the curve point at `t = 0.5` is `(0, 0, 0)`. -/
theorem demo_curve_midpoint :
    BezierCurve.Bezier.new BezierCurve.points = Except.ok ⟨BezierCurve.points⟩ ∧
    BezierCurve.Bezier.ComputePointOnCurve ⟨BezierCurve.points⟩ (1 / 2) = ⟨0, 0, 0⟩ := by
  refine ⟨rfl, ?_⟩
  rw [vec3.ext_iff3]
  simp only [BezierCurve.Bezier.ComputePointOnCurve, BezierCurve.points,
    at3_zero, at3_one, at3_two, at3_three, vec3.add_x, vec3.add_y, vec3.add_z,
    vec3.smul_x, vec3.smul_y, vec3.smul_z]
  refine ⟨?_, ?_, ?_⟩ <;> norm_num

/-- C3, amended: for every four control points and every `t`, evaluated in
exact arithmetic (any commutative ring) the expanded polynomial `Position(t)`
of the Animation demo and the Bernstein form `ComputePointOnCurve(t)` of the
BezierCurve demo are the same point, the cubic Bernstein combination of the
specification. -/
theorem position_eq_computePointOnCurve {K : Type} [CommRing K]
    (p0 p1 p2 p3 : vec3 K) (rest : List (vec3 K)) (t : K) :
    Animation.Bezier.Position ⟨p0 :: p1 :: p2 :: p3 :: rest⟩ t
      = BezierCurve.Bezier.ComputePointOnCurve ⟨[p0, p1, p2, p3]⟩ t ∧
    BezierCurve.Bezier.ComputePointOnCurve ⟨[p0, p1, p2, p3]⟩ t
      = bernsteinSpec p0 p1 p2 p3 t := by
  refine ⟨?_, ?_⟩ <;>
    (rw [vec3.ext_iff3]
     simp only [Animation.Bezier.Position, BezierCurve.Bezier.ComputePointOnCurve,
       bernsteinSpec,
       at3_zero, at3_one, at3_two, at3_three, vec3.add_x, vec3.add_y, vec3.add_z,
       vec3.smul_x, vec3.smul_y, vec3.smul_z]
     refine ⟨?_, ?_, ?_⟩ <;> ring)

/-- One coordinate of `Position`, as a function of `t`, has the matching
coordinate of `Velocity` as its derivative. -/
theorem hasDerivAt_coord (a b c d t : ℝ) :
    HasDerivAt
      (fun s : ℝ => (-(s * (s * s)) + 3 * (s * s) - 3 * s + 1) * a +
        (3 * (s * (s * s)) - 6 * (s * s) + 3 * s) * b +
        (3 * (s * s) - 3 * (s * (s * s))) * c + s * (s * s) * d)
      ((-3 * (t * t) + 6 * t - 3) * a + (9 * (t * t) - 12 * t + 3) * b +
        (6 * t - 9 * (t * t)) * c + 3 * (t * t) * d) t := by
  have h1 : HasDerivAt (fun s : ℝ => s) 1 t := hasDerivAt_id t
  have h2 : HasDerivAt (fun s : ℝ => s * s) (1 * t + t * 1) t := h1.mul h1
  have h3 : HasDerivAt (fun s : ℝ => s * (s * s)) (1 * (t * t) + t * (1 * t + t * 1)) t :=
    h1.mul h2
  have hA := ((((h3.neg.add (h2.const_mul 3)).sub (h1.const_mul 3)).add_const 1).mul_const a)
  have hB := ((((h3.const_mul 3).sub (h2.const_mul 6)).add (h1.const_mul 3)).mul_const b)
  have hC := (((h2.const_mul 3).sub (h3.const_mul 3)).mul_const c)
  have hD := (h3.mul_const d)
  have h := ((hA.add hB).add hC).add hD
  convert h using 1
  ring

/-- C4: for every four control points and every `t`, each coordinate of
`Velocity(t)` is the derivative at `t` of that coordinate of `Position`; and
`Velocity(0) = 3 (pts[1] - pts[0])`, `Velocity(1) = 3 (pts[3] - pts[2])`. -/
theorem velocity_is_derivative (p0 p1 p2 p3 : vec3 ℝ) (rest : List (vec3 ℝ)) (t : ℝ) :
    HasDerivAt (fun s => (Animation.Bezier.Position ⟨p0 :: p1 :: p2 :: p3 :: rest⟩ s).x)
      (Animation.Bezier.Velocity ⟨p0 :: p1 :: p2 :: p3 :: rest⟩ t).x t ∧
    HasDerivAt (fun s => (Animation.Bezier.Position ⟨p0 :: p1 :: p2 :: p3 :: rest⟩ s).y)
      (Animation.Bezier.Velocity ⟨p0 :: p1 :: p2 :: p3 :: rest⟩ t).y t ∧
    HasDerivAt (fun s => (Animation.Bezier.Position ⟨p0 :: p1 :: p2 :: p3 :: rest⟩ s).z)
      (Animation.Bezier.Velocity ⟨p0 :: p1 :: p2 :: p3 :: rest⟩ t).z t ∧
    Animation.Bezier.Velocity ⟨p0 :: p1 :: p2 :: p3 :: rest⟩ 0 = (3 : ℝ) * (p1 - p0) ∧
    Animation.Bezier.Velocity ⟨p0 :: p1 :: p2 :: p3 :: rest⟩ 1 = (3 : ℝ) * (p3 - p2) := by
  refine ⟨?_, ?_, ?_, ?_, ?_⟩
  · exact hasDerivAt_coord p0.x p1.x p2.x p3.x t
  · exact hasDerivAt_coord p0.y p1.y p2.y p3.y t
  · exact hasDerivAt_coord p0.z p1.z p2.z p3.z t
  · rw [vec3.ext_iff3]
    simp only [Animation.Bezier.Velocity, at3_zero, at3_one, at3_two, at3_three,
      vec3.add_x, vec3.add_y, vec3.add_z, vec3.smul_x, vec3.smul_y, vec3.smul_z,
      vec3.sub_x, vec3.sub_y, vec3.sub_z]
    refine ⟨?_, ?_, ?_⟩ <;> ring
  · rw [vec3.ext_iff3]
    simp only [Animation.Bezier.Velocity, at3_zero, at3_one, at3_two, at3_three,
      vec3.add_x, vec3.add_y, vec3.add_z, vec3.smul_x, vec3.smul_y, vec3.smul_z,
      vec3.sub_x, vec3.sub_y, vec3.sub_z]
    refine ⟨?_, ?_, ?_⟩ <;> ring

/-! ## The moving frame -/

@[simp] theorem vec3.get_zero {K : Type} [Zero K] (v : vec3 K) : v.get 0 = v.x := rfl
@[simp] theorem vec3.get_one {K : Type} [Zero K] (v : vec3 K) : v.get 1 = v.y := rfl
@[simp] theorem vec3.get_two {K : Type} [Zero K] (v : vec3 K) : v.get 2 = v.z := rfl

theorem dot_self_pos {K : Type} [LinearOrderedField K] (v : vec3 K) (h : v ≠ 0) :
    0 < dot v v := by
  have h0 : 0 ≤ dot v v := by
    unfold dot
    nlinarith [mul_self_nonneg v.x, mul_self_nonneg v.y, mul_self_nonneg v.z]
  rcases h0.lt_or_eq with hlt | heq
  · exact hlt
  · exfalso
    apply h
    unfold dot at heq
    have hx : v.x = 0 := by
      have : v.x * v.x = 0 := by
        nlinarith [mul_self_nonneg v.x, mul_self_nonneg v.y, mul_self_nonneg v.z]
      exact mul_self_eq_zero.mp this
    have hy : v.y = 0 := by
      have : v.y * v.y = 0 := by
        nlinarith [mul_self_nonneg v.x, mul_self_nonneg v.y, mul_self_nonneg v.z]
      exact mul_self_eq_zero.mp this
    have hz : v.z = 0 := by
      have : v.z * v.z = 0 := by
        nlinarith [mul_self_nonneg v.x, mul_self_nonneg v.y, mul_self_nonneg v.z]
      exact mul_self_eq_zero.mp this
    rw [vec3.ext_iff3]
    exact ⟨hx, hy, hz⟩

theorem dot_smul_left {K : Type} [CommRing K] (a : K) (u w : vec3 K) :
    dot (a * u) w = a * dot u w := by
  simp only [dot, vec3.smul_x, vec3.smul_y, vec3.smul_z]; ring

theorem dot_smul_right {K : Type} [CommRing K] (a : K) (u w : vec3 K) :
    dot u (a * w) = a * dot u w := by
  simp only [dot, vec3.smul_x, vec3.smul_y, vec3.smul_z]; ring

theorem dot_neg_right {K : Type} [CommRing K] (u w : vec3 K) :
    dot u (-w) = -dot u w := by
  simp only [dot, vec3.neg_x, vec3.neg_y, vec3.neg_z]; ring

theorem dot_comm {K : Type} [CommRing K] (u w : vec3 K) : dot u w = dot w u := by
  simp only [dot]; ring

theorem cross_smul_left {K : Type} [CommRing K] (a : K) (u w : vec3 K) :
    cross (a * u) w = a * cross u w := by
  rw [vec3.ext_iff3]
  simp only [cross, vec3.smul_x, vec3.smul_y, vec3.smul_z]
  refine ⟨?_, ?_, ?_⟩ <;> ring

theorem dot_cross_left {K : Type} [CommRing K] (u w : vec3 K) : dot (cross u w) u = 0 := by
  simp only [dot, cross]; ring

theorem dot_cross_right {K : Type} [CommRing K] (u w : vec3 K) : dot (cross u w) w = 0 := by
  simp only [dot, cross]; ring

theorem dot_cross_self {K : Type} [CommRing K] (u w : vec3 K) :
    dot (cross u w) (cross u w) = dot u u * dot w w - dot u w * dot u w := by
  simp only [dot, cross]; ring

theorem sqrt_one {K : Type} [LinearOrderedField K] (sqrt : K → K)
    (hsqrt : ∀ x, 0 < x → 0 < sqrt x ∧ sqrt x * sqrt x = x) : sqrt 1 = 1 := by
  obtain ⟨hp, hm⟩ := hsqrt 1 one_pos
  have h : (sqrt 1 - 1) * (sqrt 1 + 1) = 0 := by ring_nf; rw [sq, hm]; ring
  rcases mul_eq_zero.mp h with h1 | h1
  · exact sub_eq_zero.mp h1
  · exfalso; linarith

theorem dot_normalize_self {K : Type} [LinearOrderedField K] (sqrt : K → K)
    (hsqrt : ∀ x, 0 < x → 0 < sqrt x ∧ sqrt x * sqrt x = x) (w : vec3 K)
    (hw : 0 < dot w w) : dot (normalize sqrt w) (normalize sqrt w) = 1 := by
  obtain ⟨hp, hm⟩ := hsqrt (dot w w) hw
  unfold normalize length
  rw [dot_smul_left, dot_smul_right]
  have hne : sqrt (dot w w) ≠ 0 := ne_of_gt hp
  field_simp
  rw [hm]

theorem dot_normalize_left {K : Type} [Field K] (sqrt : K → K) (w u : vec3 K) :
    dot (normalize sqrt w) u = (1 / length sqrt w) * dot w u := by
  unfold normalize
  rw [dot_smul_left]

/-- C5, amended: in exact arithmetic, wherever `Velocity(t)` is non-zero and
not parallel to `(0, 1, 0)`, the first three columns of `Frame(t)` are
`n`, `b` and `-v`, where `v = normalize(Velocity(t))` is a positive multiple of
the velocity, `n = normalize(cross(v, (0, 1, 0)))` is a positive multiple of
`cross(Velocity(t), (0, 1, 0))` and `b = normalize(cross(n, v)) = cross(n, v)`;
they are unit vectors, pairwise orthogonal; the fourth column holds
`Position(t)` and the last row is `(0, 0, 0, 1)`. -/
theorem frame_orthonormal {K : Type} [LinearOrderedField K] (sqrt : K → K)
    (hsqrt : ∀ x, 0 < x → 0 < sqrt x ∧ sqrt x * sqrt x = x)
    (b : Animation.Bezier K) (t : K)
    (hv : b.Velocity t ≠ 0) (hup : cross (b.Velocity t) ⟨0, 1, 0⟩ ≠ 0) :
    length sqrt (b.Frame sqrt t).colx.xyz = 1 ∧
    length sqrt (b.Frame sqrt t).coly.xyz = 1 ∧
    length sqrt (b.Frame sqrt t).colz.xyz = 1 ∧
    dot (b.Frame sqrt t).colx.xyz (b.Frame sqrt t).coly.xyz = 0 ∧
    dot (b.Frame sqrt t).colx.xyz (b.Frame sqrt t).colz.xyz = 0 ∧
    dot (b.Frame sqrt t).coly.xyz (b.Frame sqrt t).colz.xyz = 0 ∧
    (b.Frame sqrt t).colw.xyz = b.Position t ∧
    (b.Frame sqrt t).row3 = ⟨0, 0, 0, 1⟩ ∧
    (b.Frame sqrt t).colz.xyz = -(normalize sqrt (b.Velocity t)) ∧
    (b.Frame sqrt t).colx.xyz
      = normalize sqrt (cross (normalize sqrt (b.Velocity t)) ⟨0, 1, 0⟩) ∧
    (b.Frame sqrt t).coly.xyz
      = normalize sqrt (cross (b.Frame sqrt t).colx.xyz (normalize sqrt (b.Velocity t))) ∧
    (b.Frame sqrt t).coly.xyz
      = cross (b.Frame sqrt t).colx.xyz (normalize sqrt (b.Velocity t)) ∧
    (∃ c : K, 0 < c ∧ normalize sqrt (b.Velocity t) = c * b.Velocity t) ∧
    (∃ c : K, 0 < c ∧ (b.Frame sqrt t).colx.xyz = c * cross (b.Velocity t) ⟨0, 1, 0⟩) := by
  -- the three vectors computed by `Frame`
  obtain ⟨v, hvdef⟩ : ∃ v, v = normalize sqrt (b.Velocity t) := ⟨_, rfl⟩
  obtain ⟨n, hndef⟩ : ∃ n, n = normalize sqrt (cross v ⟨0, 1, 0⟩) := ⟨_, rfl⟩
  obtain ⟨bn, hbdef⟩ : ∃ bn, bn = normalize sqrt (cross n v) := ⟨_, rfl⟩
  have hcx : (b.Frame sqrt t).colx.xyz = n := by
    rw [hndef, hvdef]; rfl
  have hcy : (b.Frame sqrt t).coly.xyz = bn := by
    rw [hbdef, hndef, hvdef]; rfl
  have hcz : (b.Frame sqrt t).colz.xyz = -v := by
    rw [hvdef]; rfl
  have hcw : (b.Frame sqrt t).colw.xyz = b.Position t := rfl
  -- the tangent is a unit vector
  have hV : 0 < dot (b.Velocity t) (b.Velocity t) := dot_self_pos _ hv
  have hlV : 0 < length sqrt (b.Velocity t) := (hsqrt _ hV).1
  have hv1 : dot v v = 1 := by rw [hvdef]; exact dot_normalize_self sqrt hsqrt _ hV
  -- the cross product with the up vector is not zero
  have hC : 0 < dot (cross v ⟨0, 1, 0⟩) (cross v ⟨0, 1, 0⟩) := by
    have h0 := dot_self_pos _ hup
    rw [hvdef]
    unfold normalize
    rw [cross_smul_left, dot_smul_left, dot_smul_right]
    positivity
  have hn1 : dot n n = 1 := by rw [hndef]; exact dot_normalize_self sqrt hsqrt _ hC
  have hnv : dot n v = 0 := by
    rw [hndef, dot_normalize_left, dot_cross_left, mul_zero]
  -- the binormal
  have hD1 : dot (cross n v) (cross n v) = 1 := by
    rw [dot_cross_self, hn1, hv1, hnv]; ring
  have hD : 0 < dot (cross n v) (cross n v) := by rw [hD1]; exact one_pos
  have hb1 : dot bn bn = 1 := by rw [hbdef]; exact dot_normalize_self sqrt hsqrt _ hD
  have hbn : dot bn n = 0 := by
    rw [hbdef, dot_normalize_left, dot_cross_left, mul_zero]
  have hbv : dot bn v = 0 := by
    rw [hbdef, dot_normalize_left, dot_cross_right, mul_zero]
  have hs1 := sqrt_one sqrt hsqrt
  have hlC : 0 < length sqrt (cross v ⟨0, 1, 0⟩) := (hsqrt _ hC).1
  have hbc : bn = cross n v := by
    rw [hbdef]
    unfold normalize length
    rw [hD1, hs1, vec3.ext_iff3]
    simp only [vec3.smul_x, vec3.smul_y, vec3.smul_z]
    refine ⟨?_, ?_, ?_⟩ <;> ring
  refine ⟨?_, ?_, ?_, ?_, ?_, ?_, hcw, rfl, ?_, ?_, ?_, ?_, ?_, ?_⟩
  · rw [hcx]; unfold length; rw [hn1, hs1]
  · rw [hcy]; unfold length; rw [hb1, hs1]
  · rw [hcz]; unfold length
    rw [dot_neg_right, dot_comm, dot_neg_right, neg_neg, hv1, hs1]
  · rw [hcx, hcy, dot_comm, hbn]
  · rw [hcx, hcz, dot_neg_right, hnv, neg_zero]
  · rw [hcy, hcz, dot_neg_right, hbv, neg_zero]
  · rw [hcz, hvdef]
  · rw [hcx, hndef, hvdef]
  · rw [hcy, hcx, hbdef, hvdef]
  · rw [hcy, hcx, hbc, hvdef]
  · exact ⟨1 / length sqrt (b.Velocity t), one_div_pos.mpr hlV, rfl⟩
  · refine ⟨1 / length sqrt (cross v ⟨0, 1, 0⟩) * (1 / length sqrt (b.Velocity t)),
      mul_pos (one_div_pos.mpr hlC) (one_div_pos.mpr hlV), ?_⟩
    rw [hcx, hndef]
    have hvv : v = (1 / length sqrt (b.Velocity t)) * b.Velocity t := by rw [hvdef]; rfl
    have hcr : cross v ⟨0, 1, 0⟩
        = (1 / length sqrt (b.Velocity t)) * cross (b.Velocity t) ⟨0, 1, 0⟩ := by
      rw [hvv, cross_smul_left]
    have hnn : normalize sqrt (cross v ⟨0, 1, 0⟩)
        = (1 / length sqrt (cross v ⟨0, 1, 0⟩)) * cross v ⟨0, 1, 0⟩ := rfl
    rw [hnn]
    nth_rewrite 2 [hcr]
    rw [vec3.ext_iff3]
    simp only [vec3.smul_x, vec3.smul_y, vec3.smul_z]
    refine ⟨?_, ?_, ?_⟩ <;> ring

/-- C5, amended, on the first curve of the flight path, `Bezier(&path[0])`, at
`t = 0` over the reals with the real square root: the velocity there is
`(1, 0, -1)`. -/
theorem frame_orthonormal_witness :
    Animation.Bezier.Velocity ⟨Animation.path ℝ⟩ 0 ≠ (0 : vec3 ℝ) ∧
    cross (Animation.Bezier.Velocity ⟨Animation.path ℝ⟩ 0) ⟨0, 1, 0⟩ ≠ (0 : vec3 ℝ) ∧
    length Real.sqrt (Animation.Bezier.Frame Real.sqrt ⟨Animation.path ℝ⟩ 0).colx.xyz = 1 ∧
    length Real.sqrt (Animation.Bezier.Frame Real.sqrt ⟨Animation.path ℝ⟩ 0).coly.xyz = 1 ∧
    length Real.sqrt (Animation.Bezier.Frame Real.sqrt ⟨Animation.path ℝ⟩ 0).colz.xyz = 1 ∧
    dot (Animation.Bezier.Frame Real.sqrt ⟨Animation.path ℝ⟩ 0).colx.xyz
      (Animation.Bezier.Frame Real.sqrt ⟨Animation.path ℝ⟩ 0).coly.xyz = 0 ∧
    dot (Animation.Bezier.Frame Real.sqrt ⟨Animation.path ℝ⟩ 0).colx.xyz
      (Animation.Bezier.Frame Real.sqrt ⟨Animation.path ℝ⟩ 0).colz.xyz = 0 ∧
    dot (Animation.Bezier.Frame Real.sqrt ⟨Animation.path ℝ⟩ 0).coly.xyz
      (Animation.Bezier.Frame Real.sqrt ⟨Animation.path ℝ⟩ 0).colz.xyz = 0 ∧
    (Animation.Bezier.Frame Real.sqrt ⟨Animation.path ℝ⟩ 0).colw.xyz
      = Animation.Bezier.Position ⟨Animation.path ℝ⟩ 0 ∧
    (Animation.Bezier.Frame Real.sqrt ⟨Animation.path ℝ⟩ 0).row3 = ⟨0, 0, 0, 1⟩ ∧
    (Animation.Bezier.Frame Real.sqrt ⟨Animation.path ℝ⟩ 0).colz.xyz
      = -(normalize Real.sqrt (Animation.Bezier.Velocity ⟨Animation.path ℝ⟩ 0)) ∧
    (Animation.Bezier.Frame Real.sqrt ⟨Animation.path ℝ⟩ 0).colx.xyz
      = normalize Real.sqrt (cross (normalize Real.sqrt (Animation.Bezier.Velocity ⟨Animation.path ℝ⟩ 0))
          ⟨0, 1, 0⟩) ∧
    (Animation.Bezier.Frame Real.sqrt ⟨Animation.path ℝ⟩ 0).coly.xyz
      = normalize Real.sqrt (cross (Animation.Bezier.Frame Real.sqrt ⟨Animation.path ℝ⟩ 0).colx.xyz
          (normalize Real.sqrt (Animation.Bezier.Velocity ⟨Animation.path ℝ⟩ 0))) ∧
    (Animation.Bezier.Frame Real.sqrt ⟨Animation.path ℝ⟩ 0).coly.xyz
      = cross (Animation.Bezier.Frame Real.sqrt ⟨Animation.path ℝ⟩ 0).colx.xyz
          (normalize Real.sqrt (Animation.Bezier.Velocity ⟨Animation.path ℝ⟩ 0)) ∧
    (∃ c : ℝ, 0 < c ∧ normalize Real.sqrt (Animation.Bezier.Velocity ⟨Animation.path ℝ⟩ 0)
      = c * Animation.Bezier.Velocity ⟨Animation.path ℝ⟩ 0) ∧
    (∃ c : ℝ, 0 < c ∧ (Animation.Bezier.Frame Real.sqrt ⟨Animation.path ℝ⟩ 0).colx.xyz
      = c * cross (Animation.Bezier.Velocity ⟨Animation.path ℝ⟩ 0) ⟨0, 1, 0⟩) := by
  have hs : ∀ x : ℝ, 0 < x → 0 < Real.sqrt x ∧ Real.sqrt x * Real.sqrt x = x :=
    fun x hx => ⟨Real.sqrt_pos.mpr hx, Real.mul_self_sqrt hx.le⟩
  have hvel : Animation.Bezier.Velocity ⟨Animation.path ℝ⟩ 0 = (⟨1, 0, -1⟩ : vec3 ℝ) := by
    rw [vec3.ext_iff3]
    simp only [Animation.Bezier.Velocity, Animation.path, at3_zero, at3_one, at3_two,
      at3_three, vec3.add_x, vec3.add_y, vec3.add_z, vec3.smul_x, vec3.smul_y, vec3.smul_z]
    refine ⟨?_, ?_, ?_⟩ <;> norm_num
  have h1 : Animation.Bezier.Velocity ⟨Animation.path ℝ⟩ 0 ≠ (0 : vec3 ℝ) := by
    rw [hvel]
    intro h
    have hx := congrArg vec3.x h
    simp only [vec3.zero_x] at hx
    norm_num at hx
  have h2 : cross (Animation.Bezier.Velocity ⟨Animation.path ℝ⟩ 0) ⟨0, 1, 0⟩ ≠ (0 : vec3 ℝ) := by
    rw [hvel]
    intro h
    have hz := congrArg vec3.z h
    simp only [cross, vec3.zero_z] at hz
    norm_num at hz
  exact ⟨h1, h2, frame_orthonormal Real.sqrt hs ⟨Animation.path ℝ⟩ 0 h1 h2⟩

/-! ## Mesh hierarchy -/

/-- C6: in a scene linked dog -> bird -> hat, `ApplyTransform(m)` returns (with
three units of fuel or more) and multiplies `toWorld` on the left by `m` for
the mesh it is called on and for every mesh below it, leaving the meshes above
it, and every `child` pointer, as they were. -/
theorem applyTransform_hierarchy {K : Type} [Add K] [Mul K] (s : Hierarchy.Scene K)
    (m : mat4 K) (fuel : Nat)
    (hd : s.dog.child = some .bird) (hb : s.bird.child = some .hat)
    (hh : s.hat.child = none) (hf : 3 ≤ fuel) :
    Hierarchy.HMesh.ApplyTransform fuel s .dog m =
      some { dog := { s.dog with toWorld := m * s.dog.toWorld },
             bird := { s.bird with toWorld := m * s.bird.toWorld },
             hat := { s.hat with toWorld := m * s.hat.toWorld } } ∧
    Hierarchy.HMesh.ApplyTransform fuel s .bird m =
      some { dog := s.dog,
             bird := { s.bird with toWorld := m * s.bird.toWorld },
             hat := { s.hat with toWorld := m * s.hat.toWorld } } ∧
    Hierarchy.HMesh.ApplyTransform fuel s .hat m =
      some { dog := s.dog,
             bird := s.bird,
             hat := { s.hat with toWorld := m * s.hat.toWorld } } := by
  obtain ⟨n, rfl⟩ : ∃ n, fuel = n + 3 := ⟨fuel - 3, by omega⟩
  obtain ⟨⟨d, cd⟩, ⟨b, cb⟩, ⟨h, ch⟩⟩ := s
  simp only at hd hb hh
  subst hd hb hh
  refine ⟨?_, ?_, ?_⟩ <;>
    simp [Hierarchy.HMesh.ApplyTransform, Hierarchy.Scene.get, Hierarchy.Scene.set]

/-- C6 on the scene built by `main`, transformed by the dog's own matrix. -/
theorem applyTransform_hierarchy_witness :
    Hierarchy.mainScene.dog.child = some .bird ∧
    Hierarchy.mainScene.bird.child = some .hat ∧
    Hierarchy.mainScene.hat.child = none ∧
    Hierarchy.HMesh.ApplyTransform 3 Hierarchy.mainScene .bird Hierarchy.dogM =
      some { dog := ⟨Hierarchy.dogM, some .bird⟩,
             bird := ⟨Hierarchy.dogM * Hierarchy.birdM, some .hat⟩,
             hat := ⟨Hierarchy.dogM * Hierarchy.hatM, none⟩ } :=
  ⟨rfl, rfl, rfl,
    (applyTransform_hierarchy Hierarchy.mainScene Hierarchy.dogM 3 rfl rfl rfl
      (Nat.le_refl 3)).2.1⟩

/-! ## Constructor of the BezierCurve demo's `Bezier` -/

/-- C7: the constructor throws `invalid_argument` with the message
"Cubic Bezier curve requires 4 control points" exactly when the number of
points is not 4, and succeeds with `ctrlPoints` equal to the given vector
exactly when it is 4. -/
theorem bezier_new_throws_iff {K : Type} (points : List (vec3 K)) :
    ((∃ msg, BezierCurve.Bezier.new points = Except.error msg) ↔ points.length ≠ 4) ∧
    (BezierCurve.Bezier.new points
        = Except.error "Cubic Bezier curve requires 4 control points"
      ↔ points.length ≠ 4) ∧
    (BezierCurve.Bezier.new points = Except.ok ⟨points⟩ ↔ points.length = 4) := by
  unfold BezierCurve.Bezier.new BezierCurve.NUM_POINTS
  by_cases h : points.length = 4 <;> simp [h]

/-! ## Mouse-button callbacks and the camera gesture -/

theorem pickLights_foldl_camera (over : Nat → Bool) (l : List Nat) (a : App) :
    (l.foldl (fun a i => if over i then
        ({ a with picked := Picked.mover } : App).moverDown i else a) a).camera = a.camera := by
  induction l generalizing a with
  | nil => rfl
  | cons i l ih =>
    simp only [List.foldl_cons]
    rw [ih]
    by_cases h : over i <;> simp [h, App.moverDown]

theorem pickLights_foldl_calls (over : Nat → Bool) (l : List Nat) (a : App) :
    ∃ more, (l.foldl (fun a i => if over i then
        ({ a with picked := Picked.mover } : App).moverDown i else a) a).calls
        = a.calls ++ more ∧ ∀ c ∈ more, ∃ i, c = Call.moverDown i := by
  induction l generalizing a with
  | nil => exact ⟨[], by simp, by simp⟩
  | cons i l ih =>
    simp only [List.foldl_cons]
    by_cases h : over i
    · obtain ⟨more, h1, h2⟩ := ih (({ a with picked := Picked.mover } : App).moverDown i)
      refine ⟨Call.moverDown i :: more, ?_, ?_⟩
      · simp only [h, if_true]
        rw [h1]
        simp [App.moverDown]
      · intro c hc
        rcases List.mem_cons.mp hc with rfl | hc
        · exact ⟨i, rfl⟩
        · exact h2 c hc
    · simpa [h] using ih a

theorem pickLights_camera (n : Nat) (over : Nat → Bool) (a : App) :
    (a.pickLights n over).camera = a.camera :=
  pickLights_foldl_camera over (List.range n) a

theorem pickLights_calls (n : Nat) (over : Nat → Bool) (a : App) :
    ∃ more, (a.pickLights n over).calls = a.calls ++ more ∧
      ∀ c ∈ more, ∃ i, c = Call.moverDown i :=
  pickLights_foldl_calls over (List.range n) a

theorem pickLights_none (n : Nat) (a : App) :
    a.pickLights n (fun _ => false) = a := by
  unfold App.pickLights
  induction List.range n generalizing a with
  | nil => rfl
  | cons i l ih => simp [ih]

theorem start_800 : ∃ a0, App.start 800 800 = some a0 ∧ a0.calls = [] := by
  simp [App.start, Camera.new, divChecked]

/-- The Texture3dLetter callback with no light under the pointer: whatever
the button and whatever its direction, it calls `camera.Down` and nothing
else, and leaves the camera dragging. -/
theorem texture3dLetter_mouseButton (e : ButtonEvent) (a : App) :
    (Texture3dLetter.MouseButton (fun _ => false) e a).calls
      = a.calls ++ [Call.cameraDown e.x e.y e.shift e.control] ∧
    (Texture3dLetter.MouseButton (fun _ => false) e a).camera.down = true ∧
    (Texture3dLetter.MouseButton (fun _ => false) e a).picked = Picked.camera := by
  unfold Texture3dLetter.MouseButton
  simp only [pickLights_none]
  simp [App.cameraDown, Camera.Down]

theorem smoothMesh_like_contract (n : Nat) (over : Nat → Bool) :
    GestureContract (fun e a =>
      if e.left && e.down then
        if (({ a with picked := Picked.null } : App).pickLights n over).picked = Picked.null then
          ({ ({ a with picked := Picked.null } : App).pickLights n over with
              picked := Picked.camera } : App).cameraDown e.x e.y e.shift e.control
        else ({ a with picked := Picked.null } : App).pickLights n over
      else ({ a with picked := Picked.null } : App).cameraUp) := by
  intro e a
  obtain ⟨more, hm, hmore⟩ := pickLights_calls n over ({ a with picked := Picked.null } : App)
  by_cases hld : (e.left && e.down) = true
  · have hl : e.left = true ∧ e.down = true := by simpa using hld
    simp only [hld, if_true]
    by_cases hp : (({ a with picked := Picked.null } : App).pickLights n over).picked
        = Picked.null
    · refine ⟨more ++ [Call.cameraDown e.x e.y e.shift e.control], ?_, ?_, ?_⟩
      · simp only [hp, if_true, App.cameraDown]
        rw [hm]; simp
      · intro _ _ _ _ _; exact hl
      · intro _ h2; rw [hl.2] at h2; cases h2
    · refine ⟨more, ?_, ?_, ?_⟩
      · simp only [hp, if_false]; exact hm
      · intro _ _ _ _ _; exact hl
      · intro _ h2; rw [hl.2] at h2; cases h2
  · simp only [hld]
    refine ⟨[Call.cameraUp], ?_, ?_, ?_⟩
    · simp [App.cameraUp]
    · intro x y s c h; simp at h
    · intro _ _; simp [App.cameraUp, Camera.Up]

/-- The six other demos keep the gesture discipline of C8: `camera.Down` only
on a left-button press, `camera.Up` on every left-button release. -/
theorem siblings_gestureContract :
    GestureContract Shade3dLetter.MouseButton ∧
    (∀ over, GestureContract (SmoothMesh.MouseButton over)) ∧
    (∀ over, GestureContract (BezierCurve.MouseButton over)) ∧
    (∀ over, GestureContract (Tessellation.MouseButton over)) ∧
    GestureContract Animation.MouseButton ∧
    (∀ over (scene : Hierarchy.Scene ℚ) pm, GestureContract (fun e a =>
      (Hierarchy.MouseButton over e ⟨a, scene, pm⟩).app)) := by
  refine ⟨?_, ?_, ?_, ?_, ?_, ?_⟩
  · intro e a
    obtain ⟨x, y, left, down, shift, control⟩ := e
    cases left <;> cases down <;>
      simp [Shade3dLetter.MouseButton, App.cameraDown, App.cameraUp, Camera.Up]
  · intro over
    exact smoothMesh_like_contract SmoothMesh.nLights over
  · intro over
    exact smoothMesh_like_contract BezierCurve.nPoints over
  · intro over e a
    obtain ⟨x, y, left, down, shift, control⟩ := e
    cases left <;> cases down <;> cases over <;>
      simp [Tessellation.MouseButton, App.cameraDown, App.cameraUp, App.moverDown, Camera.Up]
  · intro e a
    obtain ⟨x, y, left, down, shift, control⟩ := e
    cases left <;> cases down <;>
      simp [Animation.MouseButton, App.cameraDown, App.cameraUp, Camera.Up]
  · intro over scene pm e a
    have hfold : ∀ (l : List Hierarchy.MeshId) (w : Hierarchy.World ℚ),
        (l.foldl (fun w m => if over m then { w with pickedMesh := some m } else w) w).app
          = w.app := by
      intro l
      induction l with
      | nil => intro w; rfl
      | cons m l ih =>
        intro w
        simp only [List.foldl_cons]
        rw [ih]
        by_cases h : over m <;> simp [h]
    obtain ⟨x, y, left, down, shift, control⟩ := e
    cases left <;> cases down <;>
      simp [Hierarchy.MouseButton, hfold, App.cameraDown, App.cameraUp, Camera.Up]

/-- The Texture3dLetter callback breaks the gesture discipline. -/
theorem texture3dLetter_not_gestureContract :
    ¬ GestureContract (Texture3dLetter.MouseButton (fun _ => false)) := by
  intro h
  obtain ⟨a0, -, -⟩ := start_800
  obtain ⟨more, h1, h2, _⟩ := h ⟨0, 0, true, false, false, false⟩ a0
  rw [(texture3dLetter_mouseButton _ _).1] at h1
  have hmem : Call.cameraDown 0 0 false false ∈ more := by
    rw [← List.append_cancel_left h1]
    simp
  have := (h2 _ _ _ _ hmem).2
  simp at this

/-- C8, failing input: in the Texture3dLetter demo, started on its 800 by 800
window, a left-button release with no light under the pointer calls
`camera.Down` (and not `camera.Up`), so the camera is left in the dragging
state. -/
theorem texture3dLetter_release_calls_cameraDown :
    (App.start 800 800).map (fun a0 =>
      ((Texture3dLetter.MouseButton (fun _ => false)
          ⟨400, 400, true, false, false, false⟩ a0).calls,
       (Texture3dLetter.MouseButton (fun _ => false)
          ⟨400, 400, true, false, false, false⟩ a0).camera.down))
      = some ([Call.cameraDown 400 400 false false], true) := by
  obtain ⟨a0, h0, hc⟩ := start_800
  rw [h0, Option.map_some', (texture3dLetter_mouseButton _ _).1,
    (texture3dLetter_mouseButton _ _).2.1, hc]
  rfl

/-- In the six other demos no arcball is drawn in the frame after a
left-button release, whatever the state before and whatever Shift does. -/
theorem siblings_no_arcball_after_release (x y : ℚ) (sh ct shift : Bool) (a : App)
    (over : Nat → Bool) (ov : Bool) (overM : Hierarchy.MeshId → Bool)
    (w : Hierarchy.World ℚ) :
    Shade3dLetter.DisplayArcball shift
      (Shade3dLetter.MouseButton ⟨x, y, true, false, sh, ct⟩ a) = false ∧
    SmoothMesh.DisplayArcball shift
      (SmoothMesh.MouseButton over ⟨x, y, true, false, sh, ct⟩ a) = false ∧
    BezierCurve.DisplayArcball shift
      (BezierCurve.MouseButton over ⟨x, y, true, false, sh, ct⟩ a) = false ∧
    Tessellation.DisplayArcball
      (Tessellation.MouseButton ov ⟨x, y, true, false, sh, ct⟩ a) = false ∧
    Animation.DisplayArcball
      (Animation.MouseButton ⟨x, y, true, false, sh, ct⟩ a) = false ∧
    Hierarchy.DisplayArcball
      (Hierarchy.MouseButton overM ⟨x, y, true, false, sh, ct⟩ w) = false := by
  refine ⟨?_, ?_, rfl, ?_, rfl, ?_⟩
  · simp [Shade3dLetter.DisplayArcball, Shade3dLetter.MouseButton, App.cameraUp, Camera.Up]
  · simp [SmoothMesh.DisplayArcball, SmoothMesh.MouseButton, App.cameraUp]
  · simp [Tessellation.DisplayArcball, Tessellation.MouseButton, App.cameraUp]
  · simp [Hierarchy.DisplayArcball, Hierarchy.MouseButton, App.cameraUp, Camera.Up]

/-- In the demos that test the camera flag or `picked` afresh, an arcball
drawn in the frame after a button event means that event was a left-button
press. -/
theorem siblings_arcball_only_after_press (e : ButtonEvent) (shift : Bool) (a : App)
    (over : Nat → Bool) (ov : Bool) :
    (Shade3dLetter.DisplayArcball shift (Shade3dLetter.MouseButton e a) = true →
      e.left = true ∧ e.down = true) ∧
    (SmoothMesh.DisplayArcball shift (SmoothMesh.MouseButton over e a) = true →
      e.left = true ∧ e.down = true) ∧
    (Tessellation.DisplayArcball (Tessellation.MouseButton ov e a) = true →
      e.left = true ∧ e.down = true) := by
  obtain ⟨x, y, left, down, sh, ct⟩ := e
  refine ⟨?_, ?_, ?_⟩ <;> cases left <;> cases down <;>
    simp [Shade3dLetter.DisplayArcball, Shade3dLetter.MouseButton, SmoothMesh.DisplayArcball,
      SmoothMesh.MouseButton, Tessellation.DisplayArcball, Tessellation.MouseButton,
      App.cameraUp, Camera.Up]

/-- C9, failing input: in the Texture3dLetter demo, after a left-button press
on the camera and its release (Shift not held, no light under the pointer),
`Display` still draws the arcball; it also draws it after a lone right-button
press. -/
theorem texture3dLetter_arcball_after_release :
    (App.start 800 800).map (fun a0 =>
      (Texture3dLetter.DisplayArcball false
        (Texture3dLetter.MouseButton (fun _ => false) ⟨400, 400, true, false, false, false⟩
          (Texture3dLetter.MouseButton (fun _ => false) ⟨400, 400, true, true, false, false⟩
            a0)),
       Texture3dLetter.DisplayArcball false
        (Texture3dLetter.MouseButton (fun _ => false) ⟨400, 400, false, true, false, false⟩
          a0)))
      = some (true, true) := by
  obtain ⟨a0, h0, -⟩ := start_800
  rw [h0, Option.map_some']
  simp [Texture3dLetter.DisplayArcball, (texture3dLetter_mouseButton _ _).2.1]

/-! ## Resize -/

theorem cameraResize_clamps (width height : Int) (a : App) :
    ∃ a1, a.cameraResize width height = some a1 ∧
      a1.calls = a.calls ++ [Call.cameraResize width height] ∧
      a1.camera.width = max width 1 ∧ a1.camera.height = max height 1 ∧
      a1.camera.aspect = ((max width 1 : Int) : ℚ) / ((max height 1 : Int) : ℚ) := by
  have hh : ((max height 1 : Int) : ℚ) ≠ 0 := by
    have : (1 : Int) ≤ max height 1 := le_max_right _ _
    have h0 : (max height 1 : Int) ≠ 0 := by omega
    exact_mod_cast h0
  simp only [App.cameraResize, Camera.Resize, divChecked]
  rw [if_neg hh]
  exact ⟨_, rfl, rfl, rfl, rfl, rfl⟩

theorem resizeClamps_of_camera (R : Int → Int → App → Option App)
    (h : ∀ (width height : Int) (a : App), ∃ a0 a1 : App,
      a0.cameraResize width height = some a1 ∧
      ∃ a2 : App, R width height a = some a2 ∧ a2.camera = a1.camera) :
    ResizeClamps R := by
  intro width height a
  obtain ⟨a0, a1, h1, a2, h2, h3⟩ := h width height a
  obtain ⟨b, hb, -, hw, hh, ha⟩ := cameraResize_clamps width height a0
  rw [h1] at hb
  cases hb
  have h1w : (1 : Int) ≤ max width 1 := le_max_right _ _
  have h1h : (1 : Int) ≤ max height 1 := le_max_right _ _
  refine ⟨a2, h2, ?_, ?_, ?_, ?_, ?_, ?_⟩
  · rw [h3, hw]
  · rw [h3, hh]
  · rw [h3, hw]; exact h1w
  · rw [h3, hh]; exact h1h
  · rw [h3, hh]
    have h0 : (max height 1 : Int) ≠ 0 := by omega
    exact_mod_cast h0
  · rw [h3, ha, hw, hh]

/-- C10: every resize callback returns for every width and height, zero and
negative ones included, and leaves the camera with a viewport of at least 1 by
1 and an aspect ratio computed with a non-zero divisor. -/
theorem resize_clamps :
    ResizeClamps Shade3dLetter.Resize ∧
    ResizeClamps Texture3dLetter.Resize ∧
    ResizeClamps SmoothMesh.Resize ∧
    ResizeClamps Hierarchy.Resize ∧
    ResizeClamps BezierCurve.Resize ∧
    ResizeClamps Tessellation.Resize ∧
    ResizeClamps Animation.Resize := by
  have pre : ∀ (f : Int → Int → App → App), ResizeClamps (fun width height a =>
      (f width height a).cameraResize width height) := by
    intro f
    apply resizeClamps_of_camera
    intro width height a
    obtain ⟨b, hb, _⟩ := cameraResize_clamps width height (f width height a)
    exact ⟨f width height a, b, hb, b, hb, rfl⟩
  have post : ∀ (f : Int → Int → App → App), (∀ (width height : Int) (a : App),
      (a.glViewport 0 0 width height).camera = a.camera) →
      ResizeClamps (fun width height a =>
        ((f width height a).cameraResize width height).map
          fun a1 : App => a1.glViewport 0 0 width height) := by
    intro f hgl
    apply resizeClamps_of_camera
    intro width height a
    obtain ⟨b, hb, _⟩ := cameraResize_clamps width height (f width height a)
    refine ⟨f width height a, b, hb, b.glViewport 0 0 width height, ?_, hgl _ _ _⟩
    simp only [hb, Option.map_some']
  have hgl : ∀ (width height : Int) (a : App),
      (a.glViewport 0 0 width height).camera = a.camera := fun _ _ _ => rfl
  exact ⟨pre (fun width height a => a.glViewport 0 0 width height),
    pre (fun width height a => a.glViewport 0 0 width height),
    post (fun _ _ a => a) hgl, post (fun _ _ a => a) hgl, post (fun _ _ a => a) hgl,
    post (fun width height a => { a with winWidth := width, winHeight := height }) hgl,
    post (fun _ _ a => a) hgl⟩

/-- What the resize callback itself hands on for a 0 by 0 window: the raw
size goes to `glViewport` and to `camera.Resize`; the clamp is the camera's. -/
theorem shade3dLetter_resize_zero (a : App) :
    ∃ a1, Shade3dLetter.Resize 0 0 a = some a1 ∧
      a1.calls = a.calls ++ [Call.glViewport 0 0 0 0, Call.cameraResize 0 0] ∧
      a1.camera.width = 1 ∧ a1.camera.height = 1 ∧ a1.camera.aspect = 1 := by
  obtain ⟨b, hb, hc, hw, hh, ha⟩ := cameraResize_clamps 0 0 (a.glViewport 0 0 0 0)
  refine ⟨b, hb, ?_, ?_, ?_, ?_⟩
  · rw [hc]; simp [App.glViewport]
  · rw [hw]; rfl
  · rw [hh]; rfl
  · rw [ha]; norm_num

/-! ## Wheel zoom -/

/-- One `Wheel(+1)` step on the distance alone. -/
theorem wheel_distance (r : WheelRule) (c : Camera) (shift : Bool) :
    (Camera.Wheel r c 1 shift).distance = max r.minDistance
      (if r.multiplicative then c.distance * (1 - r.step * 1)
       else c.distance - r.step * 1) := rfl

theorem wheel_ge_min (r : WheelRule) (c : Camera) (shift : Bool) :
    r.minDistance ≤ (Camera.Wheel r c 1 shift).distance := by
  rw [wheel_distance]; exact le_max_left _ _

theorem wheel_lt (r : WheelRule) (c : Camera) (shift : Bool) (hr : r.Valid)
    (hc : r.minDistance < c.distance) :
    (Camera.Wheel r c 1 shift).distance < c.distance := by
  obtain ⟨hs, hm⟩ := hr
  rw [wheel_distance]
  apply max_lt hc
  by_cases h : r.multiplicative = true
  · rw [if_pos h]
    have : 0 < c.distance := lt_trans hm hc
    nlinarith
  · rw [if_neg h]
    linarith

theorem wheel_at_min (r : WheelRule) (c : Camera) (shift : Bool) (hr : r.Valid)
    (hc : c.distance = r.minDistance) :
    (Camera.Wheel r c 1 shift).distance = r.minDistance := by
  obtain ⟨hs, hm⟩ := hr
  rw [wheel_distance]
  apply max_eq_left
  by_cases h : r.multiplicative = true
  · rw [if_pos h, hc]
    nlinarith
  · rw [if_neg h, hc]
    linarith

/-- Each step either lands on the minimum or removes at least a fixed
positive amount. -/
theorem wheel_progress (r : WheelRule) (c : Camera) (shift : Bool) (hr : r.Valid)
    (hc : r.minDistance ≤ c.distance) :
    (Camera.Wheel r c 1 shift).distance = r.minDistance ∨
    (Camera.Wheel r c 1 shift).distance
      ≤ c.distance - (if r.multiplicative then r.minDistance * r.step else r.step) := by
  obtain ⟨hs, hm⟩ := hr
  rw [wheel_distance]
  by_cases h : r.multiplicative = true
  · simp only [if_pos h]
    rcases le_total (c.distance * (1 - r.step * 1)) r.minDistance with h1 | h1
    · left; exact max_eq_left h1
    · right
      rw [max_eq_right h1]
      nlinarith
  · simp only [if_neg h]
    rcases le_total (c.distance - r.step * 1) r.minDistance with h1 | h1
    · left; exact max_eq_left h1
    · right
      rw [max_eq_right h1]
      linarith

theorem wheelIn_succ (r : WheelRule) (shift : Bool) (n : Nat) (c : Camera) :
    Camera.wheelIn r shift (n + 1) c = Camera.Wheel r (Camera.wheelIn r shift n c) 1 shift := by
  unfold Camera.wheelIn
  rw [Function.iterate_succ_apply']

theorem wheelIn_succ_left (r : WheelRule) (shift : Bool) (n : Nat) (c : Camera) :
    Camera.wheelIn r shift (n + 1) c = Camera.wheelIn r shift n (Camera.Wheel r c 1 shift) := by
  unfold Camera.wheelIn
  rw [Function.iterate_succ_apply]

theorem wheelIn_ge_min (r : WheelRule) (shift : Bool) (n : Nat) (c : Camera)
    (hc : r.minDistance ≤ c.distance) :
    r.minDistance ≤ (Camera.wheelIn r shift n c).distance := by
  cases n with
  | zero => exact hc
  | succ n => rw [wheelIn_succ]; exact wheel_ge_min _ _ _

/-- The minimum distance is reached after finitely many steps. -/
theorem wheelIn_reaches_min (r : WheelRule) (shift : Bool) (hr : r.Valid) :
    ∀ (k : Nat) (c : Camera), r.minDistance ≤ c.distance →
      c.distance - r.minDistance
        ≤ k * (if r.multiplicative then r.minDistance * r.step else r.step) →
      ∃ N, (Camera.wheelIn r shift N c).distance = r.minDistance := by
  have hδ : 0 < (if r.multiplicative then r.minDistance * r.step else r.step) := by
    obtain ⟨hs, hm⟩ := hr
    by_cases h : r.multiplicative = true
    · rw [if_pos h]; exact mul_pos hm hs
    · rw [if_neg h]; exact hs
  intro k
  induction k with
  | zero =>
    intro c hc hk
    refine ⟨0, ?_⟩
    simp only [Nat.cast_zero, zero_mul] at hk
    have h0 : (Camera.wheelIn r shift 0 c).distance = c.distance := rfl
    rw [h0]
    exact le_antisymm (by linarith) hc
  | succ k ih =>
    intro c hc hk
    rcases wheel_progress r c shift hr hc with h | h
    · refine ⟨1, ?_⟩
      rw [wheelIn_succ]
      exact h
    · obtain ⟨N, hN⟩ := ih (Camera.Wheel r c 1 shift) (wheel_ge_min _ _ _) (by
        push_cast at hk
        linarith)
      refine ⟨N + 1, ?_⟩
      rw [wheelIn_succ_left]
      exact hN

theorem mouseWheel_iterate (r : WheelRule) (shift : Bool) (n : Nat) (a : App) :
    ((Shade3dLetter.MouseWheel r 1 shift)^[n] a).camera
      = Camera.wheelIn r shift n a.camera := by
  induction n generalizing a with
  | zero => rfl
  | succ n ih =>
    rw [Function.iterate_succ_apply, ih, wheelIn_succ_left]
    rfl

/-- C11: for a zoom rule with positive step and positive minimum, from a
distance not below the minimum, the distances after 0, 1, 2, ... `Wheel(+1)`
events fall strictly up to some event `N`, and from event `N` on the
distance is the minimum and no longer changes. -/
theorem wheel_zoom_monotone (r : WheelRule) (shift : Bool) (a : App)
    (hr : r.Valid) (ha : r.minDistance ≤ a.camera.distance) :
    ∃ N, (∀ n, n < N →
        ((Shade3dLetter.MouseWheel r 1 shift)^[n + 1] a).camera.distance
          < ((Shade3dLetter.MouseWheel r 1 shift)^[n] a).camera.distance) ∧
      (∀ n, N ≤ n →
        ((Shade3dLetter.MouseWheel r 1 shift)^[n] a).camera.distance = r.minDistance ∧
        ((Shade3dLetter.MouseWheel r 1 shift)^[n + 1] a).camera.distance
          = ((Shade3dLetter.MouseWheel r 1 shift)^[n] a).camera.distance) := by
  simp only [mouseWheel_iterate]
  have hδ : 0 < (if r.multiplicative then r.minDistance * r.step else r.step) := by
    obtain ⟨hs, hm⟩ := hr
    by_cases h : r.multiplicative = true
    · rw [if_pos h]; exact mul_pos hm hs
    · rw [if_neg h]; exact hs
  obtain ⟨k, hk⟩ := exists_nat_ge ((a.camera.distance - r.minDistance) /
    (if r.multiplicative then r.minDistance * r.step else r.step))
  have hk2 : a.camera.distance - r.minDistance
      ≤ k * (if r.multiplicative then r.minDistance * r.step else r.step) :=
    (div_le_iff₀ hδ).mp hk
  have hex := wheelIn_reaches_min r shift hr k a.camera ha hk2
  have hstay : ∀ n, Nat.find hex ≤ n →
      (Camera.wheelIn r shift n a.camera).distance = r.minDistance := by
    intro n hn
    induction n, hn using Nat.le_induction with
    | base => exact Nat.find_spec hex
    | succ n _ ih =>
      rw [wheelIn_succ]
      exact wheel_at_min r _ shift hr ih
  refine ⟨Nat.find hex, ?_, ?_⟩
  · intro n hn
    have hne : (Camera.wheelIn r shift n a.camera).distance ≠ r.minDistance :=
      Nat.find_min hex hn
    have hge := wheelIn_ge_min r shift n a.camera ha
    rw [wheelIn_succ]
    exact wheel_lt r _ shift hr (lt_of_le_of_ne hge (Ne.symm hne))
  · intro n hn
    refine ⟨hstay n hn, ?_⟩
    rw [hstay n hn, hstay (n + 1) (Nat.le_succ_of_le hn)]

/-- C11 on the 800 by 800 start-up state (distance 5) with an additive step of
1 and a minimum distance of 1. -/
theorem wheel_zoom_monotone_witness :
    WheelRule.Valid ⟨false, 1, 1⟩ ∧ (1 : ℚ) ≤ App.start800.camera.distance ∧
    ∃ N, (∀ n, n < N →
        ((Shade3dLetter.MouseWheel ⟨false, 1, 1⟩ 1 false)^[n + 1]
            App.start800).camera.distance
          < ((Shade3dLetter.MouseWheel ⟨false, 1, 1⟩ 1 false)^[n]
            App.start800).camera.distance) ∧
      (∀ n, N ≤ n →
        ((Shade3dLetter.MouseWheel ⟨false, 1, 1⟩ 1 false)^[n]
            App.start800).camera.distance = 1 ∧
        ((Shade3dLetter.MouseWheel ⟨false, 1, 1⟩ 1 false)^[n + 1]
            App.start800).camera.distance
          = ((Shade3dLetter.MouseWheel ⟨false, 1, 1⟩ 1 false)^[n]
            App.start800).camera.distance) :=
  have hv : WheelRule.Valid ⟨false, 1, 1⟩ := ⟨by norm_num, by norm_num⟩
  have hd : (1 : ℚ) ≤ App.start800.camera.distance := by
    show (1 : ℚ) ≤ 5
    norm_num
  ⟨hv, hd, wheel_zoom_monotone ⟨false, 1, 1⟩ false App.start800 hv hd⟩

/-! ## Identity drag -/

/-- C12: for every camera state and pointer position, `Down(x, y, ..)`
followed at once by `Up()` leaves rotation, pan and distance as they were and
the camera `Idle`; and so does a left-button press followed by its release
through `MouseButton` of the Shade3dLetter demo. -/
theorem down_up_identity (c : Camera) (x y : ℚ) (shift control : Bool) (a : App) :
    ((c.Down x y shift control).Up).rotation = c.rotation ∧
    ((c.Down x y shift control).Up).pan = c.pan ∧
    ((c.Down x y shift control).Up).distance = c.distance ∧
    ((c.Down x y shift control).Up).down = false ∧
    (Shade3dLetter.MouseButton ⟨x, y, true, false, shift, control⟩
      (Shade3dLetter.MouseButton ⟨x, y, true, true, shift, control⟩ a)).camera
      = (a.camera.Down x y shift control).Up := by
  refine ⟨rfl, rfl, rfl, rfl, ?_⟩
  simp [Shade3dLetter.MouseButton, App.cameraDown, App.cameraUp]

/-! ## Keyboard and picking in the Hierarchy demo -/

/-- C13: a press of `R` sets the three `toWorld` matrices to the identity (and
leaves the `child` pointers); a press of `P`, a press of any key other than
`R`, and every key release leave the three meshes as they were. -/
theorem keyboard_resets_on_R {K : Type} [Zero K] [One K] (modelview : mat4 K)
    (k : Int) (shift control : Bool) (w : Hierarchy.World K) :
    ((Hierarchy.Keyboard modelview ('R'.toNat : Int) true shift control w).1.scene
      = { dog := ⟨1, w.scene.dog.child⟩,
          bird := ⟨1, w.scene.bird.child⟩,
          hat := ⟨1, w.scene.hat.child⟩ }) ∧
    (Hierarchy.Keyboard modelview ('P'.toNat : Int) true shift control w).1.scene
      = w.scene ∧
    ((Hierarchy.Keyboard modelview k true shift control w).1.scene
      = if k = ('R'.toNat : Int) then w.scene.reset else w.scene) ∧
    (Hierarchy.Keyboard modelview k false shift control w).1.scene = w.scene := by
  refine ⟨?_, ?_, ?_, ?_⟩
  · simp [Hierarchy.Keyboard, Hierarchy.Scene.reset]
  · simp [Hierarchy.Keyboard]
  · by_cases h : k = 82 <;> simp [Hierarchy.Keyboard, h]
  · simp [Hierarchy.Keyboard]

/-- C19: a right-button press sets `pickedMesh` to the last of dog, bird, hat
whose origin is under the pointer, or to the null pointer when none is; a
left-button event, pressed or released, and a right-button release leave
`pickedMesh` as it was. -/
theorem mouseButton_picks_last {K : Type} (over : Hierarchy.MeshId → Bool)
    (x y : ℚ) (down shift control : Bool) (w : Hierarchy.World K) :
    (Hierarchy.MouseButton over ⟨x, y, false, true, shift, control⟩ w).pickedMesh
      = (Hierarchy.meshes.filter over).getLast? ∧
    (Hierarchy.MouseButton over ⟨x, y, true, down, shift, control⟩ w).pickedMesh
      = w.pickedMesh ∧
    (Hierarchy.MouseButton over ⟨x, y, false, false, shift, control⟩ w).pickedMesh
      = w.pickedMesh := by
  refine ⟨?_, ?_, ?_⟩
  · cases h1 : over .dog <;> cases h2 : over .bird <;> cases h3 : over .hat <;>
      simp [Hierarchy.MouseButton, Hierarchy.meshes, List.filter, h1, h2, h3]
  · cases down <;> simp [Hierarchy.MouseButton]
  · simp [Hierarchy.MouseButton]

theorem mat4.one_mul_eq {K : Type} [Semiring K] (m : mat4 K) : (1 : mat4 K) * m = m := by
  obtain ⟨⟨a0, a1, a2, a3⟩, ⟨b0, b1, b2, b3⟩, ⟨c0, c1, c2, c3⟩, ⟨d0, d1, d2, d3⟩⟩ := m
  show mat4.mul mat4.one _ = _
  simp [mat4.mul, mat4.one, mat4.rowMul, vec4.dot4, mat4.colx, mat4.coly, mat4.colz,
    mat4.colw]

/-- With the links dog -> bird -> hat, `ApplyTransform` with the identity
returns the scene it was given. -/
theorem applyTransform_one {K : Type} [Semiring K] (s : Hierarchy.Scene K)
    (pm : Hierarchy.MeshId) (fuel : Nat)
    (hd : s.dog.child = some .bird) (hb : s.bird.child = some .hat)
    (hh : s.hat.child = none) (hf : 3 ≤ fuel) :
    Hierarchy.HMesh.ApplyTransform fuel s pm 1 = some s := by
  obtain ⟨n, rfl⟩ : ∃ n, fuel = n + 3 := ⟨fuel - 3, by omega⟩
  obtain ⟨⟨d, cd⟩, ⟨b, cb⟩, ⟨h, ch⟩⟩ := s
  simp only at hd hb hh
  subst hd hb hh
  cases pm <;>
    simp [Hierarchy.HMesh.ApplyTransform, Hierarchy.Scene.get, Hierarchy.Scene.set,
      mat4.one_mul_eq]

theorem keyTransform_idle {K : Type} [Field K] (T : Transforms K) (rot : K)
    (kx ky kz sh : Bool) (origin : vec3 K) :
    Hierarchy.keyTransform T rot ⟨false, false, false, false, kx, ky, kz, false, sh⟩ origin
      = 1 := by
  cases kx <;> cases ky <;> cases kz <;> simp [Hierarchy.keyTransform]

/-- C20: with no mesh picked, `TestKey` returns the state unchanged whatever
keys are held; with a mesh picked in the hierarchy dog -> bird -> hat and none
of the arrow keys or S held, it applies the identity and every mesh, `toWorld`
included, is again unchanged. -/
theorem testKey_no_change {K : Type} [Field K] (T : Transforms K) (rot : K)
    (keys : KeyState) (kx ky kz sh : Bool) (pm : Hierarchy.MeshId) (fuel : Nat)
    (w : Hierarchy.World K)
    (hd : w.scene.dog.child = some .bird) (hb : w.scene.bird.child = some .hat)
    (hh : w.scene.hat.child = none) (hf : 3 ≤ fuel) :
    Hierarchy.TestKey T rot keys fuel { w with pickedMesh := none }
      = some { w with pickedMesh := none } ∧
    Hierarchy.keyTransform T rot ⟨false, false, false, false, kx, ky, kz, false, sh⟩
      (w.scene.get pm).Origin = 1 ∧
    Hierarchy.TestKey T rot ⟨false, false, false, false, kx, ky, kz, false, sh⟩ fuel
        { w with pickedMesh := some pm }
      = some { w with pickedMesh := some pm } := by
  refine ⟨rfl, keyTransform_idle T rot kx ky kz sh _, ?_⟩
  simp only [Hierarchy.TestKey, keyTransform_idle]
  rw [applyTransform_one w.scene pm fuel hd hb hh hf]
  rfl

/-- C20 on the scene built by `main`, with the bird picked, `X` and Shift held
and the transform builders all returning the dog's matrix. -/
theorem testKey_no_change_witness :
    Hierarchy.mainScene.dog.child = some .bird ∧
    Hierarchy.mainScene.bird.child = some .hat ∧
    Hierarchy.mainScene.hat.child = none ∧
    Hierarchy.TestKey
        ⟨fun _ => Hierarchy.dogM, fun _ => Hierarchy.dogM, fun _ => Hierarchy.dogM,
          fun _ => Hierarchy.dogM, fun _ => Hierarchy.dogM⟩ 1
        ⟨false, false, false, false, true, false, false, false, true⟩ 3
        ⟨App.start800, Hierarchy.mainScene, some .bird⟩
      = some ⟨App.start800, Hierarchy.mainScene, some .bird⟩ :=
  ⟨rfl, rfl, rfl,
    (testKey_no_change
      ⟨fun _ => Hierarchy.dogM, fun _ => Hierarchy.dogM, fun _ => Hierarchy.dogM,
        fun _ => Hierarchy.dogM, fun _ => Hierarchy.dogM⟩ 1
      ⟨true, true, true, true, true, true, true, true, true⟩ true false false true
      .bird 3 ⟨App.start800, Hierarchy.mainScene, none⟩ rfl rfl rfl (Nat.le_refl 3)).2.2⟩

/-! ## Degenerate frame, curve drawing, flight path -/

/-- C16: where the x and z components of `Velocity(t)` are both zero, the
cross product of the tangent with `(0, 1, 0)` that `Frame` computes is the zero
vector, and the first column of `Frame(t)` is `normalize` applied to it, with
nothing in between. -/
theorem frame_degenerate {K : Type} [Field K] (sqrt : K → K) (b : Animation.Bezier K)
    (t : K) (hx : (b.Velocity t).x = 0) (hz : (b.Velocity t).z = 0) :
    cross (normalize sqrt (b.Velocity t)) ⟨0, 1, 0⟩ = 0 ∧
    (b.Frame sqrt t).colx.xyz
      = normalize sqrt (cross (normalize sqrt (b.Velocity t)) ⟨0, 1, 0⟩) ∧
    (b.Frame sqrt t).colx.xyz = normalize sqrt 0 := by
  have h0 : cross (normalize sqrt (b.Velocity t)) ⟨0, 1, 0⟩ = 0 := by
    rw [vec3.ext_iff3]
    simp only [cross, normalize, vec3.smul_x, vec3.smul_y, vec3.smul_z, hx, hz,
      vec3.zero_x, vec3.zero_y, vec3.zero_z]
    refine ⟨?_, ?_, ?_⟩ <;> ring
  have h1 : (b.Frame sqrt t).colx.xyz
      = normalize sqrt (cross (normalize sqrt (b.Velocity t)) ⟨0, 1, 0⟩) := rfl
  exact ⟨h0, h1, by rw [h1, h0]⟩

/-- C16 on the vertical line through `(0,0,0), (0,1,0), (0,2,0), (0,3,0)` at
`t = 0`, where the velocity is `(0, 3, 0)`. -/
theorem frame_degenerate_witness :
    (Animation.Bezier.Velocity (⟨[⟨0, 0, 0⟩, ⟨0, 1, 0⟩, ⟨0, 2, 0⟩, ⟨0, 3, 0⟩]⟩ :
      Animation.Bezier ℚ) 0).x = 0 ∧
    (Animation.Bezier.Velocity (⟨[⟨0, 0, 0⟩, ⟨0, 1, 0⟩, ⟨0, 2, 0⟩, ⟨0, 3, 0⟩]⟩ :
      Animation.Bezier ℚ) 0).z = 0 ∧
    cross (normalize (fun x => x) (Animation.Bezier.Velocity
      (⟨[⟨0, 0, 0⟩, ⟨0, 1, 0⟩, ⟨0, 2, 0⟩, ⟨0, 3, 0⟩]⟩ : Animation.Bezier ℚ) 0))
      ⟨0, 1, 0⟩ = 0 :=
  have hx : (Animation.Bezier.Velocity (⟨[⟨0, 0, 0⟩, ⟨0, 1, 0⟩, ⟨0, 2, 0⟩, ⟨0, 3, 0⟩]⟩ :
      Animation.Bezier ℚ) 0).x = 0 := by
    simp [Animation.Bezier.Velocity]
  have hz : (Animation.Bezier.Velocity (⟨[⟨0, 0, 0⟩, ⟨0, 1, 0⟩, ⟨0, 2, 0⟩, ⟨0, 3, 0⟩]⟩ :
      Animation.Bezier ℚ) 0).z = 0 := by
    simp [Animation.Bezier.Velocity]
  ⟨hx, hz, (frame_degenerate (fun x => x) _ 0 hx hz).1⟩

theorem computePoint_zero {K : Type} [CommRing K] (p0 p1 p2 p3 : vec3 K) :
    BezierCurve.Bezier.ComputePointOnCurve ⟨[p0, p1, p2, p3]⟩ 0 = p0 := by
  rw [vec3.ext_iff3]
  simp only [BezierCurve.Bezier.ComputePointOnCurve,
    at3_zero, at3_one, at3_two, at3_three, vec3.add_x, vec3.add_y, vec3.add_z,
    vec3.smul_x, vec3.smul_y, vec3.smul_z]
  refine ⟨?_, ?_, ?_⟩ <;> ring

theorem computePoint_one {K : Type} [CommRing K] (p0 p1 p2 p3 : vec3 K) :
    BezierCurve.Bezier.ComputePointOnCurve ⟨[p0, p1, p2, p3]⟩ 1 = p3 := by
  rw [vec3.ext_iff3]
  simp only [BezierCurve.Bezier.ComputePointOnCurve,
    at3_zero, at3_one, at3_two, at3_three, vec3.add_x, vec3.add_y, vec3.add_z,
    vec3.smul_x, vec3.smul_y, vec3.smul_z]
  refine ⟨?_, ?_, ?_⟩ <;> ring

/-- Loop invariant of `DrawCurve`: after `n` rounds `p0` is the curve point at
`n / SEGMENT_COUNT` and the lines drawn are segments `0 .. n-1`. -/
theorem drawCurve_loop {K : Type} [Field K] (b : BezierCurve.Bezier K) (n : Nat) :
    (List.range n).foldl
      (fun (st : vec3 K × List (vec3 K × vec3 K)) (k : Nat) =>
        let i : Nat := k + 1
        let t : K := ((i : Nat) : K) / ((BezierCurve.SEGMENT_COUNT : Nat) : K)
        let p1 := b.ComputePointOnCurve t
        (p1, st.2 ++ [(st.1, p1)]))
      (b.ComputePointOnCurve 0, [])
    = (b.ComputePointOnCurve (((n : Nat) : K) / ((BezierCurve.SEGMENT_COUNT : Nat) : K)),
       (List.range n).map fun k =>
        (b.ComputePointOnCurve (((k : Nat) : K) / ((BezierCurve.SEGMENT_COUNT : Nat) : K)),
         b.ComputePointOnCurve
          (((k + 1 : Nat) : K) / ((BezierCurve.SEGMENT_COUNT : Nat) : K)))) := by
  induction n with
  | zero => simp
  | succ n ih =>
    rw [List.range_succ, List.foldl_append, ih]
    simp

theorem drawCurve_eq {K : Type} [Field K] (b : BezierCurve.Bezier K) :
    b.DrawCurve = (List.range 100).map fun k =>
      (b.ComputePointOnCurve (((k : Nat) : K) / 100),
       b.ComputePointOnCurve (((k + 1 : Nat) : K) / 100)) := by
  unfold BezierCurve.Bezier.DrawCurve
  rw [drawCurve_loop]
  simp [BezierCurve.SEGMENT_COUNT]

/-- C17: for every four control points `DrawCurve` draws exactly 100 lines;
line `k + 1` (for `k = 0 .. 99`) joins the curve points at `k / 100` and
`(k + 1) / 100`, so the first starts at `ctrlPoints[0]`, the last ends at
`ctrlPoints[3]`, and each line starts where the one before it ended. -/
theorem drawCurve_polyline {K : Type} [LinearOrderedField K] (p0 p1 p2 p3 : vec3 K) :
    (BezierCurve.Bezier.DrawCurve ⟨[p0, p1, p2, p3]⟩).length = 100 ∧
    (∀ k, k < 100 → (BezierCurve.Bezier.DrawCurve ⟨[p0, p1, p2, p3]⟩)[k]? = some
      (BezierCurve.Bezier.ComputePointOnCurve ⟨[p0, p1, p2, p3]⟩ (((k : Nat) : K) / 100),
       BezierCurve.Bezier.ComputePointOnCurve ⟨[p0, p1, p2, p3]⟩
        (((k + 1 : Nat) : K) / 100))) ∧
    ((BezierCurve.Bezier.DrawCurve ⟨[p0, p1, p2, p3]⟩)[0]?).map Prod.fst = some p0 ∧
    ((BezierCurve.Bezier.DrawCurve ⟨[p0, p1, p2, p3]⟩)[99]?).map Prod.snd = some p3 ∧
    (∀ k, k + 1 < 100 →
      ((BezierCurve.Bezier.DrawCurve ⟨[p0, p1, p2, p3]⟩)[k + 1]?).map Prod.fst
        = ((BezierCurve.Bezier.DrawCurve ⟨[p0, p1, p2, p3]⟩)[k]?).map Prod.snd) := by
  have hget : ∀ k, k < 100 →
      (BezierCurve.Bezier.DrawCurve ⟨[p0, p1, p2, p3]⟩)[k]? = some
        (BezierCurve.Bezier.ComputePointOnCurve ⟨[p0, p1, p2, p3]⟩ (((k : Nat) : K) / 100),
         BezierCurve.Bezier.ComputePointOnCurve ⟨[p0, p1, p2, p3]⟩
          (((k + 1 : Nat) : K) / 100)) := by
    intro k hk
    rw [drawCurve_eq, List.getElem?_map, List.getElem?_range hk]
    rfl
  refine ⟨?_, hget, ?_, ?_, ?_⟩
  · rw [drawCurve_eq]; simp
  · rw [hget 0 (by norm_num)]
    simp [computePoint_zero]
  · rw [hget 99 (by norm_num)]
    have h100 : (((99 + 1 : Nat) : K) / 100) = 1 := by norm_num
    simp only [Option.map_some', h100, computePoint_one]
  · intro k hk
    rw [hget (k + 1) hk, hget k (by omega)]
    rfl

theorem position_zero {K : Type} [CommRing K] (p0 p1 p2 p3 : vec3 K)
    (rest : List (vec3 K)) :
    Animation.Bezier.Position ⟨p0 :: p1 :: p2 :: p3 :: rest⟩ 0 = p0 := by
  rw [vec3.ext_iff3]
  simp only [Animation.Bezier.Position,
    at3_zero, at3_one, at3_two, at3_three, vec3.add_x, vec3.add_y, vec3.add_z,
    vec3.smul_x, vec3.smul_y, vec3.smul_z]
  refine ⟨?_, ?_, ?_⟩ <;> ring

theorem position_one {K : Type} [CommRing K] (p0 p1 p2 p3 : vec3 K)
    (rest : List (vec3 K)) :
    Animation.Bezier.Position ⟨p0 :: p1 :: p2 :: p3 :: rest⟩ 1 = p3 := by
  rw [vec3.ext_iff3]
  simp only [Animation.Bezier.Position,
    at3_zero, at3_one, at3_two, at3_three, vec3.add_x, vec3.add_y, vec3.add_z,
    vec3.smul_x, vec3.smul_y, vec3.smul_z]
  refine ⟨?_, ?_, ?_⟩ <;> ring

/-- C18: the four curves of the flight path close up: the end point of each
is the start point of the next, the fourth leading back to the first. -/
theorem flight_path_closed {K : Type} [Field K] (k : Fin 4) :
    (Animation.bezierAt K k).pts = (Animation.path K).drop (3 * k) ∧
    (Animation.bezierAt K k).Position 1 = at3 (Animation.path K) (3 * (k + 1)) ∧
    (Animation.bezierAt K k).Position 1
      = (Animation.bezierAt K ((k + 1) % 4)).Position 0 := by
  fin_cases k <;>
    simp [Animation.bezierAt, Animation.bezier, Animation.path, position_zero, position_one,
      at3]

/-! ## Texture coordinates of the letter -/

theorem mapM_eq_some_map {α β : Type} (f : α → Option β) (g : α → β) (l : List α)
    (h : ∀ a ∈ l, f a = some (g a)) : l.mapM f = some (l.map g) := by
  induction l with
  | nil => rfl
  | cons a l ih =>
    rw [List.mapM_cons, h a (List.mem_cons_self a l),
      ih (fun b hb => h b (List.mem_cons_of_mem a hb))]
    rfl

set_option maxRecDepth 100000 in
theorem texture_points_min_max :
    (Bounds Texture3dLetter.points).2.1 = ⟨50, 50, -50⟩ ∧
    (Bounds Texture3dLetter.points).2.2 = ⟨350, 350, 0⟩ := by
  decide

theorem texture_points_bounds :
    Bounds Texture3dLetter.points
      = ((Bounds Texture3dLetter.points).1, ⟨50, 50, -50⟩, ⟨350, 350, 0⟩) := by
  obtain ⟨h1, h2⟩ := texture_points_min_max
  exact Prod.ext rfl (Prod.ext h1 h2)

set_option maxRecDepth 100000 in
theorem texture_points_range :
    ∀ p ∈ Texture3dLetter.points, 50 ≤ p.x ∧ p.x ≤ 350 ∧ 50 ≤ p.y ∧ p.y ≤ 350 := by
  decide

/-- C15: for the 34 letter vertices the bounds are `(50, 50, -50)` and
`(350, 350, 0)`, so both divisors are `300`; `SetUvs` returns, and gives each
vertex `((x - 50) / 300, (y - 50) / 300)`, with both components in `[0, 1]`,
`0` at a minimal and `1` at a maximal coordinate. -/
theorem setUvs_letter :
    Texture3dLetter.points.length = 34 ∧
    (Bounds Texture3dLetter.points).2.1 = ⟨50, 50, -50⟩ ∧
    (Bounds Texture3dLetter.points).2.2 = ⟨350, 350, 0⟩ ∧
    ((Bounds Texture3dLetter.points).2.2 - (Bounds Texture3dLetter.points).2.1).x ≠ 0 ∧
    ((Bounds Texture3dLetter.points).2.2 - (Bounds Texture3dLetter.points).2.1).y ≠ 0 ∧
    Texture3dLetter.SetUvs Texture3dLetter.points
      = some (Texture3dLetter.points.map fun p =>
          ⟨(p.x - 50) / (350 - 50), (p.y - 50) / (350 - 50)⟩) ∧
    (∀ p ∈ Texture3dLetter.points,
      0 ≤ (p.x - 50) / (350 - 50) ∧ (p.x - 50) / (350 - 50) ≤ 1 ∧
      0 ≤ (p.y - 50) / (350 - 50) ∧ (p.y - 50) / (350 - 50) ≤ 1 ∧
      (p.x = 50 → (p.x - 50) / (350 - 50) = 0) ∧
      (p.x = 350 → (p.x - 50) / (350 - 50) = 1) ∧
      (p.y = 50 → (p.y - 50) / (350 - 50) = 0) ∧
      (p.y = 350 → (p.y - 50) / (350 - 50) = 1)) := by
  have hb := texture_points_bounds
  obtain ⟨hmin, hmax⟩ := texture_points_min_max
  refine ⟨rfl, hmin, hmax, ?_, ?_, ?_, ?_⟩
  · rw [hmin, hmax]; simp only [vec3.sub_x]; norm_num
  · rw [hmin, hmax]; simp only [vec3.sub_y]; norm_num
  · unfold Texture3dLetter.SetUvs
    rw [hb]
    apply mapM_eq_some_map
    intro p _
    simp only [vec3.sub_x, vec3.sub_y, divChecked]
    norm_num
  · intro p hp
    obtain ⟨h1, h2, h3, h4⟩ := texture_points_range p hp
    have h300 : (0 : ℚ) < 350 - 50 := by norm_num
    refine ⟨?_, ?_, ?_, ?_, ?_, ?_, ?_, ?_⟩
    · exact div_nonneg (by linarith) h300.le
    · rw [div_le_one h300]; linarith
    · exact div_nonneg (by linarith) h300.le
    · rw [div_le_one h300]; linarith
    · intro h; rw [h]; norm_num
    · intro h; rw [h]; norm_num
    · intro h; rw [h]; norm_num
    · intro h; rw [h]; norm_num

/-! ## Standardizing the points -/

/-- C21: in both 3D letter demos there are 34 points and 68 triangles; for
`i = 0 .. 16` point `i + 17` has the `x` and `y` of point `i` and `z = -50`;
and for `i = 0 .. 15` triangle `16 + i` is triangle `i` with 17 added to each
index and the last two indices swapped. -/
theorem back_mirrors_front :
    Shade3dLetter.points.length = 34 ∧ Shade3dLetter.triangles.length = 68 ∧
    (∀ i, i < 17 → ∃ p, Shade3dLetter.points[i]? = some p ∧
      Shade3dLetter.points[i + 17]? = some ⟨p.x, p.y, -50⟩) ∧
    (∀ i, i < 16 → ∃ t, Shade3dLetter.triangles[i]? = some t ∧
      Shade3dLetter.triangles[16 + i]? = some ⟨t.i1 + 17, t.i3 + 17, t.i2 + 17⟩) ∧
    Texture3dLetter.points = Shade3dLetter.points ∧
    Texture3dLetter.triangles = Shade3dLetter.triangles := by
  refine ⟨rfl, rfl, ?_, ?_, rfl, rfl⟩
  · intro i hi
    interval_cases i <;> exact ⟨_, rfl, rfl⟩
  · intro i hi
    interval_cases i <;> exact ⟨_, rfl, by decide⟩

/-! ## What the compiled code returns: binary32 -/

/-- The literals `0.1f`, `0.8f` and `0.9f`, the quotient `2 / 3.f` and the
square root of two in binary32. -/
theorem binary32_literals :
    ((1 : F32) / 10) = ⟨13421773, -27⟩ ∧ ((4 : F32) / 5) = ⟨13421773, -24⟩ ∧
    ((9 : F32) / 10) = ⟨7549747, -23⟩ ∧ ((2 : F32) / 3) = ⟨11184811, -24⟩ ∧
    F32.sqrt 2 = ⟨11863283, -23⟩ := by
  decide

set_option maxRecDepth 100000 in
/-- C3, counterexample: in binary32, on the control points of the BezierCurve
demo at `t = 0.1f`, `Position` returns `x = -3959423 / 2 ^ 22` and
`ComputePointOnCurve` returns `x = -7918845 / 2 ^ 23`: the two methods do not
return the same point. -/
theorem binary32_position_ne_computePointOnCurve :
    Binary32.Position ⟨Binary32.curvePoints⟩ (1 / 10)
      = ⟨⟨-3959423, -22⟩, ⟨4294967, -23⟩, 0⟩ ∧
    Binary32.ComputePointOnCurve ⟨Binary32.curvePoints⟩ (1 / 10)
      = ⟨⟨-7918845, -23⟩, ⟨4294967, -23⟩, 0⟩ ∧
    Binary32.Position ⟨Binary32.curvePoints⟩ (1 / 10)
      ≠ Binary32.ComputePointOnCurve ⟨Binary32.curvePoints⟩ (1 / 10) := by
  decide

/-- Of the 101 parameters `i / 100`, `i = 0 .. 100`, at which `DrawCurve` draws
the demo curve, the two methods return different points in binary32 at 89. -/
theorem binary32_drawCurve_disagreements :
    ((List.range 101).filter fun i =>
      decide (Binary32.Position ⟨Binary32.curvePoints⟩ (F32.ofNat i / 100)
        ≠ Binary32.ComputePointOnCurve ⟨Binary32.curvePoints⟩ (F32.ofNat i / 100))).length
      = 89 := by
  decide!

/-- In binary32 the two methods agree at both ends of the demo curve. -/
theorem binary32_position_eq_at_ends :
    Binary32.Position ⟨Binary32.curvePoints⟩ 0
      = Binary32.ComputePointOnCurve ⟨Binary32.curvePoints⟩ 0 ∧
    Binary32.Position ⟨Binary32.curvePoints⟩ 1
      = Binary32.ComputePointOnCurve ⟨Binary32.curvePoints⟩ 1 := by
  decide

/-- C5, counterexample: in binary32, for `Bezier(&path[0])` at `t = 0` the
velocity is `(1, 0, -1)`, not zero and not parallel to `(0, 1, 0)`, and the
third axis column of `Frame(0)` is `(-c, 0, c)` with `c = 11863283 / 2 ^ 24`,
whichever way `normalize` divides: its squared length is not `1`, and
`length` returns `16777215 / 2 ^ 24` for it. -/
theorem binary32_frame_not_unit :
    Binary32.Velocity ⟨Binary32.path⟩ 0 = ⟨1, 0, -1⟩ ∧
    cross (Binary32.Velocity ⟨Binary32.path⟩ 0) ⟨0, 1, 0⟩ = (⟨1, 0, 1⟩ : vec3 F32) ∧
    (Binary32.Frame true ⟨Binary32.path⟩ 0).colz.xyz
      = ⟨⟨-11863283, -24⟩, 0, ⟨11863283, -24⟩⟩ ∧
    (Binary32.Frame false ⟨Binary32.path⟩ 0).colz.xyz
      = ⟨⟨-11863283, -24⟩, 0, ⟨11863283, -24⟩⟩ ∧
    length F32.sqrt (⟨⟨-11863283, -24⟩, 0, ⟨11863283, -24⟩⟩ : vec3 F32)
      = ⟨16777215, -24⟩ ∧
    dot (vec3.toRat ⟨⟨-11863283, -24⟩, 0, ⟨11863283, -24⟩⟩)
      (vec3.toRat ⟨⟨-11863283, -24⟩, 0, ⟨11863283, -24⟩⟩) ≠ 1 := by
  refine ⟨by decide, by decide, by decide, by decide, by decide, ?_⟩
  have h0 : F32.toRat 0 = 0 := by
    have h : (0 : F32) = ⟨0, 0⟩ := by decide
    rw [h]
    simp [F32.toRat]
  simp only [dot, vec3.toRat, h0]
  norm_num [F32.toRat]

set_option maxRecDepth 100000 in
/-- In binary32 with `s = 0.8f`, the value `main` passes, the letter is fitted
without rounding error: every coordinate lies in `[-s, s]`, the centre of the
new bounding box is the origin and its largest extent is `2 s`. -/
theorem binary32_standardizePoints_demo :
    (∀ q ∈ Binary32.StandardizePoints (4 / 5) Binary32.points,
      -(4 / 5) ≤ q.x ∧ q.x ≤ 4 / 5 ∧ -(4 / 5) ≤ q.y ∧ q.y ≤ 4 / 5 ∧
        -(4 / 5) ≤ q.z ∧ q.z ≤ 4 / 5) ∧
    ((Binary32.Bounds (Binary32.StandardizePoints (4 / 5) Binary32.points)).2.1
      + (Binary32.Bounds (Binary32.StandardizePoints (4 / 5) Binary32.points)).2.2)
        / (2 : F32) = 0 ∧
    (Binary32.Bounds (Binary32.StandardizePoints (4 / 5) Binary32.points)).1
      = (2 : F32) * (4 / 5) := by
  decide

end Graphics
